import Mathlib

/-!
# DualSigmoidModel: the simulation recurrence

A shallow embedding of the numerical core of `src/components/DualSigmoidModel.js`
(`calculatePhi`, `calculatePhiOffset`, `calculateC`, `calculateF`, `calculateFreq`
and the loop of `generateSimulation`), followed by theorems about it.

The definitions are generic in the number type, which is read in two ways.

* Over an ordered field, in particular the reals with `Math.exp`, `Math.log` and
  `Math.sqrt` read as `Real.exp`, `Real.log` and `Real.sqrt`, arithmetic is exact
  and division is total. This reading serves the properties of the structure of
  the run and those that hold on every run whose values are numbers.
* Over `JsNum α` the special values of an IEEE 754 number (the negative zero, the
  two infinities and NaN) are added to exact finite arithmetic. This reading
  decides what the program does at `kSteepness = 0`, at `freqMax = 0` and at a
  negative argument of the square root.

Rounding and overflow of binary64 arithmetic are modelled in neither reading.
-/

set_option autoImplicit false

namespace DualSigmoidModel

/-- The three functions of the JavaScript `Math` object that the model calls
(`Math.max` is the `max` of the number type). -/
structure JsMath (α : Type) where
  exp : α → α
  log : α → α
  sqrt : α → α

/-- The seventeen reactive parameters of the component (`useState` fields,
`chartData` and `exampleSentence` apart). -/
structure Params (α : Type) where
  initialC : α
  initialF : α
  initialFreq : α
  alpha : α
  beta : α
  gamma : α
  kSteepness : α
  tMid : α
  fKSteepness : α
  fTMid : α
  delta : α
  freqMax : α
  cMax : α
  fMin : α
  fMax : α
  timeSteps : Nat
  useLogFreq : Bool

/-- The `params` object built at the top of `generateSimulation` and
destructured by `calculateC`. -/
structure CParams (α : Type) where
  alpha : α
  beta : α
  gamma : α
  kSteepness : α
  tMid : α
  freqMax : α
  cMax : α

/-- One element pushed on `data`: `{time, c, f, freq, tpm, phi}`. -/
structure DataPoint (α : Type) where
  time : Nat
  c : α
  f : α
  freq : α
  tpm : α
  phi : α

/-- The component state that `generateSimulation` reads and writes: the seventeen
parameters, and `chartData` (line 23). -/
structure Component (α : Type) where
  params : Params α
  chartData : List (DataPoint α)

section Model

variable {α : Type} [Add α] [Sub α] [Mul α] [Div α] [Neg α] [Max α]
  [OfNat α 0] [OfNat α 1] [OfNat α 2] [OfScientific α] [NatCast α]

/-- `calculatePhi(c, freq, f, alpha, beta, gamma, freqMax)`, lines 63-66. -/
def calculatePhi (c freq f alpha beta gamma freqMax : α) : α :=
  let normalizedFreq := freq / freqMax
  max 0 (alpha * normalizedFreq + beta * (f + 1) + gamma * c)

/-- `calculatePhiOffset(initialC, initialF, initialFreq, alpha, beta, gamma,
freqMax, kSteepness, tMid, cMax)`, lines 69-76. -/
def calculatePhiOffset (M : JsMath α)
    (initialC initialF initialFreq alpha beta gamma freqMax kSteepness tMid cMax : α) : α :=
  let standardPhi := calculatePhi initialC initialFreq initialF alpha beta gamma freqMax
  tMid - standardPhi + M.log ((cMax / initialC) - 1) / -kSteepness

/-- `calculateC(t, c, freq, f, params, phiOffset)`, lines 79-83. -/
def calculateC (M : JsMath α) (t c freq f : α) (params : CParams α) (phiOffset : α) : α :=
  let phi := calculatePhi c freq f params.alpha params.beta params.gamma params.freqMax
  params.cMax / (1 + M.exp (-params.kSteepness * (t - params.tMid + phi + phiOffset)))

/-- `calculateF(t, fKSteepness, fTMid, fMin, fMax)`, lines 86-89. -/
def calculateF (M : JsMath α) (t fKSteepness fTMid fMin fMax : α) : α :=
  let fRange := fMax - fMin
  fMin + fRange / (1 + M.exp (-fKSteepness * (t - fTMid)))

/-- `calculateFreq(freq, delta, c, f, useLogFreq)`, lines 92-101. -/
def calculateFreq (M : JsMath α) (freq delta c f : α) (useLogFreq : Bool) : α :=
  let normalizedF := f + 1.0
  let influenceFactor := (c + normalizedF) / 2
  if useLogFreq then
    freq + delta * influenceFactor * M.sqrt (freq + 0.1)
  else
    freq + delta * influenceFactor * freq * 0.8

/-- The `for (let t = 0; t <= timeSteps; t++)` loop of `generateSimulation`,
lines 123-151, from the iteration with counter `t`, with the loop variables
`currentC`, `currentFreq` and the array `data` passed explicitly. -/
def simLoop (M : JsMath α) (p : Params α) (params : CParams α) (phiOffset : α)
    (t : Nat) (currentC currentFreq : α) (data : List (DataPoint α)) : List (DataPoint α) :=
  if t ≤ p.timeSteps then
    let currentF := calculateF M (t : α) p.fKSteepness p.fTMid p.fMin p.fMax
    let tpm := if p.useLogFreq then M.exp currentFreq - 1 else currentFreq
    let currentPhi := calculatePhi currentC currentFreq currentF p.alpha p.beta p.gamma p.freqMax
    let data := data ++ [{ time := t, c := currentC, f := currentF, freq := currentFreq,
                           tpm := tpm, phi := currentPhi }]
    if t < p.timeSteps then
      let currentC := calculateC M (t : α) currentC currentFreq currentF params phiOffset
      let currentFreq := calculateFreq M currentFreq p.delta currentC currentF p.useLogFreq
      simLoop M p params phiOffset (t + 1) currentC currentFreq data
    else
      simLoop M p params phiOffset (t + 1) currentC currentFreq data
  else
    data
termination_by p.timeSteps + 1 - t
decreasing_by all_goals omega

/-- `generateSimulation()`, lines 104-154: the array handed to `setChartData`. -/
def generateSimulation (M : JsMath α) (p : Params α) : List (DataPoint α) :=
  let params : CParams α :=
    { alpha := p.alpha, beta := p.beta, gamma := p.gamma, kSteepness := p.kSteepness,
      tMid := p.tMid, freqMax := p.freqMax, cMax := p.cMax }
  let phiOffset := calculatePhiOffset M p.initialC p.initialF p.initialFreq
    p.alpha p.beta p.gamma p.freqMax p.kSteepness p.tMid p.cMax
  simLoop M p params phiOffset 0 p.initialC p.initialFreq []

/-- The body of the `useEffect` hook, lines 175-185: one call of
`generateSimulation()`, whose last statement `setChartData(data)` (line 153)
replaces `chartData` by the freshly built array. -/
def useEffect (M : JsMath α) (st : Component α) : Component α :=
  { st with chartData := generateSimulation M st.params }

/-! ### Concrete parameter sets -/

/-- A valid parameter set with one update step and round numbers:
`initialC = 1`, `cMax = 2`, `initialF = -0.9`, `beta = 1`, the other weights zero,
both steepnesses `1`, both midpoints `0`, linear frequency law. -/
def sampleParams (α : Type) [LinearOrderedField α] : Params α :=
  { initialC := 1, initialF := -0.9, initialFreq := 1, alpha := 0, beta := 1, gamma := 0,
    kSteepness := 1, tMid := 0, fKSteepness := 1, fTMid := 0, delta := 1, freqMax := 1,
    cMax := 2, fMin := -1, fMax := 0, timeSteps := 1, useLogFreq := false }

/-- The initial values of the seventeen `useState` fields, lines 6-22. -/
def defaultParams (α : Type) [LinearOrderedField α] : Params α :=
  { initialC := 0.1, initialF := -0.9, initialFreq := 0.5, alpha := 1.0, beta := 1.0,
    gamma := 0.5, kSteepness := 0.2, tMid := 25, fKSteepness := 0.2, fTMid := 18,
    delta := 0.1, freqMax := 3.0, cMax := 1.0, fMin := -1.0, fMax := 0.0, timeSteps := 50,
    useLogFreq := true }

/-- The parameter set `sampleParams` with every parameter of the C and frequency
side changed and the F parameters and `timeSteps` kept. -/
def sampleParamsAlt (α : Type) [LinearOrderedField α] : Params α :=
  { initialC := 0.5, initialF := -0.5, initialFreq := 2, alpha := 1, beta := 2, gamma := 3,
    kSteepness := 0.5, tMid := 10, fKSteepness := 1, fTMid := 0, delta := 0.5, freqMax := 3,
    cMax := 1, fMin := -1, fMax := 0, timeSteps := 1, useLogFreq := true }

/-- The default parameters with `kSteepness` set to `0`. -/
def zeroSteepnessParams (α : Type) [LinearOrderedField α] : Params α :=
  { defaultParams α with kSteepness := 0 }

/-- The default parameters with `timeSteps` set to `0`. -/
def zeroStepsParams (α : Type) [LinearOrderedField α] : Params α :=
  { defaultParams α with timeSteps := 0 }

/-! ### The loop as an indexed trajectory

`trajectory` and `pointAt` are proof devices: they name the values the loop
variables hold at the top of iteration `t` and the element pushed there.
`generateSimulation_eq_map` shows that the loop emits exactly these. -/

/-- The `params` object of a run. -/
def runParams (p : Params α) : CParams α :=
  { alpha := p.alpha, beta := p.beta, gamma := p.gamma, kSteepness := p.kSteepness,
    tMid := p.tMid, freqMax := p.freqMax, cMax := p.cMax }

/-- The `phiOffset` constant of a run. -/
def runOffset (M : JsMath α) (p : Params α) : α :=
  calculatePhiOffset M p.initialC p.initialF p.initialFreq
    p.alpha p.beta p.gamma p.freqMax p.kSteepness p.tMid p.cMax

/-- The pair `(currentC, currentFreq)` after `t` executions of the update block. -/
def trajectory (M : JsMath α) (p : Params α) : Nat → α × α
  | 0 => (p.initialC, p.initialFreq)
  | t + 1 =>
    let currentF := calculateF M (t : α) p.fKSteepness p.fTMid p.fMin p.fMax
    let nextC := calculateC M (t : α) (trajectory M p t).1 (trajectory M p t).2 currentF
      (runParams p) (runOffset M p)
    (nextC, calculateFreq M (trajectory M p t).2 p.delta nextC currentF p.useLogFreq)

/-- The element pushed at iteration `t` when the loop variables hold `trajectory M p t`. -/
def pointAt (M : JsMath α) (p : Params α) (t : Nat) : DataPoint α :=
  { time := t
    c := (trajectory M p t).1
    f := calculateF M (t : α) p.fKSteepness p.fTMid p.fMin p.fMax
    freq := (trajectory M p t).2
    tpm := if p.useLogFreq then M.exp (trajectory M p t).2 - 1 else (trajectory M p t).2
    phi := calculatePhi (trajectory M p t).1 (trajectory M p t).2
      (calculateF M (t : α) p.fKSteepness p.fTMid p.fMin p.fMax) p.alpha p.beta p.gamma p.freqMax }

end Model

/-! ### JavaScript numbers with their special values

`JsNum α` adds to the exact values of an ordered field `α` the special values of
an IEEE 754 number: the negative zero, the two infinities and NaN.  Arithmetic
on finite values is exact (no rounding, no overflow); the special values follow
the rules of ECMAScript.  The definitions of the model, being generic in the
number type, run on `JsNum α` as they do on `α`. -/

/-- A JavaScript number: a finite value (`fin 0` is `+0`), `-0`, `+Infinity`
(`inf false`), `-Infinity` (`inf true`) or `NaN`. -/
inductive JsNum (α : Type) where
  | fin (x : α)
  | negZero
  | inf (neg : Bool)
  | nan

namespace JsNum

section Ops

variable {α : Type} [LinearOrderedField α]

/-- The value of a finite number (`0` for `-0` and for the special values). -/
def toField : JsNum α → α
  | fin x => x
  | _ => 0

/-- The number is finite: neither an infinity nor NaN. -/
def IsFinite : JsNum α → Prop
  | fin _ => True
  | negZero => True
  | _ => False

/-- The sign bit. -/
def isNeg : JsNum α → Bool
  | fin x => decide (x < 0)
  | negZero => true
  | inf b => b
  | nan => false

/-- The zero with the given sign bit. -/
def zero (neg : Bool) : JsNum α :=
  if neg then negZero else fin 0

/-- The finite result `x` of a multiplication or division whose sign bit is `neg`:
a zero result keeps the sign. -/
def ofSigned (x : α) (neg : Bool) : JsNum α :=
  if x = 0 then zero neg else fin x

/-- Unary minus. -/
def neg : JsNum α → JsNum α
  | fin x => if x = 0 then negZero else fin (-x)
  | negZero => fin 0
  | inf b => inf (!b)
  | nan => nan

/-- Addition: `∞ + -∞` is NaN, `-0 + -0` is `-0`, any other zero sum is `+0`. -/
def add : JsNum α → JsNum α → JsNum α
  | nan, _ => nan
  | _, nan => nan
  | inf a, inf b => if a = b then inf a else nan
  | inf a, _ => inf a
  | _, inf b => inf b
  | negZero, negZero => negZero
  | negZero, fin y => fin y
  | fin x, negZero => fin x
  | fin x, fin y => fin (x + y)

/-- Subtraction, `a + (-b)`. -/
def sub (a b : JsNum α) : JsNum α :=
  add a (neg b)

/-- Multiplication: `0 * ∞` is NaN, the sign bit of the result is the exclusive or
of the sign bits. -/
def mul : JsNum α → JsNum α → JsNum α
  | nan, _ => nan
  | _, nan => nan
  | inf a, inf b => inf (xor a b)
  | inf a, y => if y.toField = 0 then nan else inf (xor a y.isNeg)
  | x, inf b => if x.toField = 0 then nan else inf (xor x.isNeg b)
  | x, y => ofSigned (x.toField * y.toField) (xor x.isNeg y.isNeg)

/-- Division: `0 / 0` and `∞ / ∞` are NaN, a non-zero value over a zero is an
infinity, the sign bit of the result is the exclusive or of the sign bits. -/
def div : JsNum α → JsNum α → JsNum α
  | nan, _ => nan
  | _, nan => nan
  | inf _, inf _ => nan
  | inf a, y => inf (xor a y.isNeg)
  | x, inf b => zero (xor x.isNeg b)
  | x, y =>
    if y.toField = 0 then
      if x.toField = 0 then nan else inf (xor x.isNeg y.isNeg)
    else ofSigned (x.toField / y.toField) (xor x.isNeg y.isNeg)

/-- The function `Math.max` on two arguments: NaN if either is NaN, and `+0` is
larger than `-0`. -/
def max : JsNum α → JsNum α → JsNum α
  | nan, _ => nan
  | _, nan => nan
  | inf false, _ => inf false
  | _, inf false => inf false
  | inf true, y => y
  | x, inf true => x
  | negZero, y => if y.toField < 0 then negZero else y
  | fin x, y => if x < y.toField then y else fin x

/-- The comparison `a <= b`: false when either side is NaN, and `-0` equals `+0`. -/
def le : JsNum α → JsNum α → Prop
  | nan, _ => False
  | _, nan => False
  | inf true, _ => True
  | _, inf false => True
  | inf false, _ => False
  | _, inf true => False
  | x, y => x.toField ≤ y.toField

/-- The comparison `a < b`: false when either side is NaN, and `-0` equals `+0`. -/
def lt : JsNum α → JsNum α → Prop
  | nan, _ => False
  | _, nan => False
  | inf true, inf true => False
  | inf true, _ => True
  | inf false, _ => False
  | _, inf false => True
  | _, inf true => False
  | x, y => x.toField < y.toField

instance : Add (JsNum α) := ⟨add⟩
instance : Sub (JsNum α) := ⟨sub⟩
instance : Mul (JsNum α) := ⟨mul⟩
instance : Div (JsNum α) := ⟨div⟩
instance : Neg (JsNum α) := ⟨neg⟩
instance : Max (JsNum α) := ⟨max⟩
instance : LE (JsNum α) := ⟨le⟩
instance : LT (JsNum α) := ⟨lt⟩
instance : NatCast (JsNum α) := ⟨fun n => fin (n : α)⟩
instance : OfScientific (JsNum α) := ⟨fun m s e => fin (OfScientific.ofScientific m s e)⟩
instance : OfNat (JsNum α) 0 := ⟨fin 0⟩
instance : OfNat (JsNum α) 1 := ⟨fin 1⟩
instance : OfNat (JsNum α) 2 := ⟨fin 2⟩

/-- The `Math` object on `JsNum α`, from `exp`, `log` and `sqrt` on the finite
values: `exp(-∞) = 0`, `log(±0) = -∞`, `sqrt(-0) = -0`, and `log` and `sqrt` of a
negative number are NaN. -/
def liftMath (M : JsMath α) : JsMath (JsNum α) where
  exp
    | fin x => fin (M.exp x)
    | negZero => fin (M.exp 0)
    | inf false => inf false
    | inf true => fin 0
    | nan => nan
  log
    | fin x => if 0 < x then fin (M.log x) else if x = 0 then inf true else nan
    | negZero => inf true
    | inf false => inf false
    | inf true => nan
    | nan => nan
  sqrt
    | fin x => if 0 ≤ x then fin (M.sqrt x) else nan
    | negZero => negZero
    | inf false => inf false
    | inf true => nan
    | nan => nan

/-- A parameter set of finite values as a parameter set of JavaScript numbers. -/
def ofParams (p : Params α) : Params (JsNum α) :=
  { initialC := fin p.initialC, initialF := fin p.initialF, initialFreq := fin p.initialFreq,
    alpha := fin p.alpha, beta := fin p.beta, gamma := fin p.gamma,
    kSteepness := fin p.kSteepness, tMid := fin p.tMid, fKSteepness := fin p.fKSteepness,
    fTMid := fin p.fTMid, delta := fin p.delta, freqMax := fin p.freqMax, cMax := fin p.cMax,
    fMin := fin p.fMin, fMax := fin p.fMax, timeSteps := p.timeSteps,
    useLogFreq := p.useLogFreq }

end Ops

end JsNum

/-- The default parameters with `freqMax` set to `0`. -/
def zeroFreqMaxParams (α : Type) [LinearOrderedField α] : Params α :=
  { defaultParams α with freqMax := 0 }

/-- The default parameters with `freqMax` and `initialFreq` set to `0`. -/
def zeroFreqParams (α : Type) [LinearOrderedField α] : Params α :=
  { defaultParams α with freqMax := 0, initialFreq := 0 }

/-- The default parameters with `initialFreq` set to `-1`. -/
def negativeFreqParams (α : Type) [LinearOrderedField α] : Params α :=
  { defaultParams α with initialFreq := -1 }

/-! ### The loop emits the trajectory -/

section Structural

variable {α : Type} [Add α] [Sub α] [Mul α] [Div α] [Neg α] [Max α]
  [OfNat α 0] [OfNat α 1] [OfNat α 2] [OfScientific α] [NatCast α]

theorem simLoop_done (M : JsMath α) (p : Params α) (params : CParams α) (phiOffset : α)
    (t : Nat) (c freq : α) (data : List (DataPoint α)) (ht : p.timeSteps < t) :
    simLoop M p params phiOffset t c freq data = data := by
  rw [simLoop, if_neg (by omega)]

theorem simLoop_eq_append (M : JsMath α) (p : Params α) :
    ∀ (n t : Nat) (data : List (DataPoint α)), t + n = p.timeSteps + 1 →
      simLoop M p (runParams p) (runOffset M p) t (trajectory M p t).1 (trajectory M p t).2 data
        = data ++ (List.range' t n).map (pointAt M p) := by
  intro n
  induction n with
  | zero =>
    intro t data h
    rw [simLoop_done M p _ _ t _ _ data (by omega)]
    simp
  | succ n ih =>
    intro t data h
    rw [simLoop, if_pos (by omega)]
    by_cases hlt : t < p.timeSteps
    · simp only [if_pos hlt]
      have := ih (t + 1) (data ++ [pointAt M p t]) (by omega)
      simp only [trajectory] at this
      rw [pointAt] at this
      rw [this]
      simp [List.range'_succ, pointAt]
    · simp only [if_neg hlt]
      rw [simLoop_done M p _ _ (t + 1) _ _ _ (by omega)]
      have hn : n = 0 := by omega
      subst hn
      simp [pointAt]

theorem generateSimulation_eq_map (M : JsMath α) (p : Params α) :
    generateSimulation M p = (List.range (p.timeSteps + 1)).map (pointAt M p) := by
  have := simLoop_eq_append M p (p.timeSteps + 1) 0 [] (by omega)
  simp only [trajectory, List.nil_append] at this
  rw [List.range_eq_range']
  exact this

theorem generateSimulation_getElem? (M : JsMath α) (p : Params α) (i : Nat)
    (hi : i ≤ p.timeSteps) : (generateSimulation M p)[i]? = some (pointAt M p i) := by
  rw [generateSimulation_eq_map, List.getElem?_map, List.getElem?_range (by omega)]
  rfl

theorem pointAt_mem (M : JsMath α) (p : Params α) (i : Nat) (hi : i ≤ p.timeSteps) :
    pointAt M p i ∈ generateSimulation M p :=
  List.getElem?_mem (generateSimulation_getElem? M p i hi)

theorem mem_generateSimulation (M : JsMath α) (p : Params α) (s : DataPoint α)
    (hs : s ∈ generateSimulation M p) : ∃ i, i ≤ p.timeSteps ∧ s = pointAt M p i := by
  rw [generateSimulation_eq_map, List.mem_map] at hs
  obtain ⟨i, hi, rfl⟩ := hs
  exact ⟨i, by rw [List.mem_range] at hi; omega, rfl⟩

end Structural

/-! ### Arithmetic of the special values -/

namespace JsNum

section Lemmas

variable {α : Type} [LinearOrderedField α]

theorem add_def (a b : JsNum α) : a + b = add a b := rfl
theorem sub_def (a b : JsNum α) : a - b = add a (neg b) := rfl
theorem mul_def (a b : JsNum α) : a * b = mul a b := rfl
theorem div_def (a b : JsNum α) : a / b = div a b := rfl
theorem neg_def (a : JsNum α) : -a = neg a := rfl
theorem max_def (a b : JsNum α) : Max.max a b = max a b := rfl
theorem le_def (a b : JsNum α) : a ≤ b ↔ le a b := Iff.rfl
theorem lt_def (a b : JsNum α) : a < b ↔ lt a b := Iff.rfl
theorem zero_def : (0 : JsNum α) = fin 0 := rfl
theorem one_def : (1 : JsNum α) = fin 1 := rfl
theorem two_def : (2 : JsNum α) = fin 2 := rfl
theorem natCast_def (n : Nat) : ((n : Nat) : JsNum α) = fin (n : α) := rfl
theorem ofScientific_def (m : Nat) (s : Bool) (e : Nat) :
    (OfScientific.ofScientific m s e : JsNum α) = fin (OfScientific.ofScientific m s e) := rfl

theorem nan_add (a : JsNum α) : nan + a = nan := by
  rcases a with x | _ | (_ | _) | _ <;>
    simp [add_def, sub_def, mul_def, div_def, max_def, le_def, lt_def, add, neg, mul, div,
      max, le, lt]

theorem add_nan (a : JsNum α) : a + nan = nan := by
  rcases a with x | _ | (_ | _) | _ <;>
    simp [add_def, sub_def, mul_def, div_def, max_def, le_def, lt_def, add, neg, mul, div,
      max, le, lt]

theorem nan_sub (a : JsNum α) : nan - a = nan := by
  rcases a with x | _ | (_ | _) | _ <;>
    simp [add_def, sub_def, mul_def, div_def, max_def, le_def, lt_def, add, neg, mul, div,
      max, le, lt]

theorem sub_nan (a : JsNum α) : a - nan = nan := by
  rcases a with x | _ | (_ | _) | _ <;>
    simp [add_def, sub_def, mul_def, div_def, max_def, le_def, lt_def, add, neg, mul, div,
      max, le, lt]

theorem nan_mul (a : JsNum α) : nan * a = nan := by
  rcases a with x | _ | (_ | _) | _ <;>
    simp [add_def, sub_def, mul_def, div_def, max_def, le_def, lt_def, add, neg, mul, div,
      max, le, lt]

theorem mul_nan (a : JsNum α) : a * nan = nan := by
  rcases a with x | _ | (_ | _) | _ <;>
    simp [add_def, sub_def, mul_def, div_def, max_def, le_def, lt_def, add, neg, mul, div,
      max, le, lt]

theorem nan_div (a : JsNum α) : nan / a = nan := by
  rcases a with x | _ | (_ | _) | _ <;>
    simp [add_def, sub_def, mul_def, div_def, max_def, le_def, lt_def, add, neg, mul, div,
      max, le, lt]

theorem div_nan (a : JsNum α) : a / nan = nan := by
  rcases a with x | _ | (_ | _) | _ <;>
    simp [add_def, sub_def, mul_def, div_def, max_def, le_def, lt_def, add, neg, mul, div,
      max, le, lt]

theorem max_nan (a : JsNum α) : Max.max a nan = nan := by
  rcases a with x | _ | (_ | _) | _ <;>
    simp [add_def, sub_def, mul_def, div_def, max_def, le_def, lt_def, add, neg, mul, div,
      max, le, lt]

theorem nan_max (a : JsNum α) : Max.max nan a = nan := by
  rcases a with x | _ | (_ | _) | _ <;>
    simp [add_def, sub_def, mul_def, div_def, max_def, le_def, lt_def, add, neg, mul, div,
      max, le, lt]

theorem not_le_nan (a : JsNum α) : ¬ a ≤ nan := by
  rcases a with x | _ | (_ | _) | _ <;>
    simp [add_def, sub_def, mul_def, div_def, max_def, le_def, lt_def, add, neg, mul, div,
      max, le, lt]

theorem not_nan_le (a : JsNum α) : ¬ nan ≤ a := by
  rcases a with x | _ | (_ | _) | _ <;>
    simp [add_def, sub_def, mul_def, div_def, max_def, le_def, lt_def, add, neg, mul, div,
      max, le, lt]

theorem not_lt_nan (a : JsNum α) : ¬ a < nan := by
  rcases a with x | _ | (_ | _) | _ <;>
    simp [add_def, sub_def, mul_def, div_def, max_def, le_def, lt_def, add, neg, mul, div,
      max, le, lt]

theorem not_nan_lt (a : JsNum α) : ¬ nan < a := by
  rcases a with x | _ | (_ | _) | _ <;>
    simp [add_def, sub_def, mul_def, div_def, max_def, le_def, lt_def, add, neg, mul, div,
      max, le, lt]


theorem isFinite_fin (x : α) : IsFinite (fin x) := trivial

theorem isFinite_zero : IsFinite (0 : JsNum α) := trivial

theorem isFinite_one : IsFinite (1 : JsNum α) := trivial

theorem isFinite_natCast (n : Nat) : IsFinite ((n : Nat) : JsNum α) := trivial

theorem isFinite_ofSigned (x : α) (b : Bool) : IsFinite (ofSigned x b) := by
  unfold ofSigned zero
  split_ifs <;> trivial

theorem isFinite_neg {a : JsNum α} (ha : IsFinite a) : IsFinite (-a) := by
  rcases a with x | _ | b | _
  · rw [neg_def, neg]
    split_ifs <;> trivial
  · trivial
  · exact False.elim ha
  · exact False.elim ha

theorem isFinite_add {a b : JsNum α} (ha : IsFinite a) (hb : IsFinite b) :
    IsFinite (a + b) := by
  rcases a with x | _ | _ | _ <;> rcases b with y | _ | _ | _ <;>
    first | trivial | exact False.elim ha | exact False.elim hb

theorem isFinite_sub {a b : JsNum α} (ha : IsFinite a) (hb : IsFinite b) :
    IsFinite (a - b) :=
  isFinite_add ha (isFinite_neg hb)

theorem isFinite_mul {a b : JsNum α} (ha : IsFinite a) (hb : IsFinite b) :
    IsFinite (a * b) := by
  rcases a with x | _ | _ | _ <;> rcases b with y | _ | _ | _ <;>
    first | exact isFinite_ofSigned _ _ | exact False.elim ha | exact False.elim hb

theorem isFinite_div {a b : JsNum α} (ha : IsFinite a) (hb : IsFinite b)
    (h0 : b.toField ≠ 0) : IsFinite (a / b) := by
  rcases a with x | _ | _ | _ <;> rcases b with y | _ | _ | _ <;>
    first
    | exact absurd rfl h0
    | exact False.elim ha
    | exact False.elim hb
    | (simp only [toField] at h0
       simp only [div_def, div, toField, if_neg h0]
       exact isFinite_ofSigned _ _)

theorem isFinite_max {a b : JsNum α} (ha : IsFinite a) (hb : IsFinite b) :
    IsFinite (Max.max a b) := by
  rcases a with x | _ | _ | _ <;> rcases b with y | _ | _ | _ <;>
    first
    | exact False.elim ha
    | exact False.elim hb
    | (simp only [max_def, max, toField]
       split_ifs <;> trivial)

theorem add_inf_of_isFinite {a : JsNum α} (ha : IsFinite a) (b : Bool) : a + inf b = inf b := by
  rcases a with x | _ | _ | _ <;> first | rfl | exact False.elim ha

theorem inf_add_of_isFinite {a : JsNum α} (ha : IsFinite a) (b : Bool) : inf b + a = inf b := by
  rcases a with x | _ | _ | _ <;> first | rfl | exact False.elim ha

theorem sub_inf_of_isFinite {a : JsNum α} (ha : IsFinite a) (b : Bool) :
    a - inf b = inf (!b) := by
  rcases a with x | _ | _ | _ <;> first | rfl | exact False.elim ha

theorem inf_add_inf_opposite (b : Bool) : (inf b : JsNum α) + inf (!b) = nan := by
  cases b <;> rfl

theorem neg_fin_zero : -(fin 0 : JsNum α) = negZero := by
  simp [neg_def, neg]

theorem negZero_mul_inf (b : Bool) : (negZero : JsNum α) * inf b = nan := by
  simp [mul_def, mul, toField]

theorem fin_div_negZero_of_pos {x : α} (hx : 0 < x) : fin x / negZero = inf true := by
  have h1 : x ≠ 0 := ne_of_gt hx
  have h2 : ¬ x < 0 := not_lt.mpr (le_of_lt hx)
  simp [div_def, div, toField, isNeg, h1, h2]

theorem fin_div_fin_zero_of_pos {x : α} (hx : 0 < x) : fin x / fin 0 = inf false := by
  have h1 : x ≠ 0 := ne_of_gt hx
  have h2 : ¬ x < 0 := not_lt.mpr (le_of_lt hx)
  simp [div_def, div, toField, isNeg, h1, h2]

theorem fin_zero_div_fin_zero : (fin 0 : JsNum α) / fin 0 = nan := by
  simp [div_def, div, toField]

theorem fin_mul_inf_of_pos {x : α} (hx : 0 < x) : fin x * inf false = inf false := by
  have h1 : x ≠ 0 := ne_of_gt hx
  have h2 : ¬ x < 0 := not_lt.mpr (le_of_lt hx)
  simp [mul_def, mul, toField, isNeg, h1, h2]

theorem liftMath_exp_of_isFinite (M : JsMath α) {a : JsNum α} (ha : IsFinite a) :
    (liftMath M).exp a = fin (M.exp a.toField) := by
  rcases a with x | _ | _ | _ <;> first | rfl | exact False.elim ha

theorem fin_add_fin (x y : α) : fin x + fin y = fin (x + y) := rfl

theorem fin_sub_fin (x y : α) : fin x - fin y = fin (x - y) := by
  by_cases hy : y = 0
  · simp [sub_def, neg, add, hy]
  · simp [sub_def, neg, add, hy, sub_eq_add_neg]

theorem fin_div_fin {x y : α} (hx : x ≠ 0) (hy : y ≠ 0) : fin x / fin y = fin (x / y) := by
  simp [div_def, div, toField, ofSigned, hx, hy]

theorem liftMath_log_fin_of_pos (M : JsMath α) {x : α} (hx : 0 < x) :
    (liftMath M).log (fin x) = fin (M.log x) := by
  simp [liftMath, hx]

theorem liftMath_sqrt_fin_of_neg (M : JsMath α) {x : α} (hx : x < 0) :
    (liftMath M).sqrt (fin x) = nan := by
  simp [liftMath, not_le.mpr hx]

theorem max_zero_eq_nan_iff (w : JsNum α) : Max.max (0 : JsNum α) w = nan ↔ w = nan := by
  rcases w with x | _ | (_ | _) | _ <;> simp [max_def, zero_def, max, toField]
  split_ifs <;> simp

theorem zero_le_max_zero (w : JsNum α) (hw : w ≠ nan) : (0 : JsNum α) ≤ Max.max 0 w := by
  rcases w with x | _ | (_ | _) | _
  · simp only [max_def, zero_def, max, toField, le_def]
    split_ifs with h
    · exact le_of_lt h
    · exact le_refl (0 : α)
  · simp [max_def, zero_def, max, toField, le_def, le]
  · simp [max_def, zero_def, max, le_def, le]
  · simp [max_def, zero_def, max, toField, le_def, le]
  · exact absurd rfl hw

theorem liftMath_exp_nan (M : JsMath α) : (liftMath M).exp nan = nan := rfl

end Lemmas

end JsNum

/-! ### The model on JavaScript numbers, with the real `exp`, `log` and `sqrt` -/

section Special

open JsNum

/-- On finite arguments the F logistic is finite. -/
theorem calculateF_isFinite (t fKSteepness fTMid fMin fMax : JsNum ℝ)
    (ht : IsFinite t) (hk : IsFinite fKSteepness) (hm : IsFinite fTMid)
    (hmin : IsFinite fMin) (hmax : IsFinite fMax) :
    IsFinite (calculateF (JsNum.liftMath (JsMath.mk Real.exp Real.log Real.sqrt)) t fKSteepness fTMid fMin fMax) := by
  unfold calculateF
  simp only
  rw [liftMath_exp_of_isFinite _ (isFinite_mul (isFinite_neg hk) (isFinite_sub ht hm)),
    one_def, fin_add_fin]
  refine isFinite_add hmin (isFinite_div (isFinite_sub hmax hmin) (isFinite_fin _) ?_)
  have he := Real.exp_pos (-fKSteepness * (t - fTMid)).toField
  change (1 : ℝ) + Real.exp (-fKSteepness * (t - fTMid)).toField ≠ 0
  linarith

/-- On finite arguments with a non-zero `freqMax`, `calculatePhi` is finite. -/
theorem calculatePhi_isFinite (c freq f alpha beta gamma freqMax : JsNum ℝ)
    (hc : IsFinite c) (hq : IsFinite freq) (hf : IsFinite f) (ha : IsFinite alpha)
    (hb : IsFinite beta) (hg : IsFinite gamma) (hm : IsFinite freqMax)
    (h0 : freqMax.toField ≠ 0) :
    IsFinite (calculatePhi c freq f alpha beta gamma freqMax) := by
  unfold calculatePhi
  simp only
  exact isFinite_max isFinite_zero
    (isFinite_add (isFinite_add (isFinite_mul ha (isFinite_div hq hm h0))
      (isFinite_mul hb (isFinite_add hf isFinite_one))) (isFinite_mul hg hc))

/-- When `freq / freqMax` is NaN, so is `calculatePhi`. -/
theorem calculatePhi_eq_nan (c freq f alpha beta gamma freqMax : JsNum ℝ)
    (h : freq / freqMax = nan) : calculatePhi c freq f alpha beta gamma freqMax = nan := by
  unfold calculatePhi
  simp only [h, mul_nan, nan_add, max_nan]

/-- When its offset is NaN, or its `c` or `freq` argument, `calculateC` is NaN. -/
theorem calculateC_eq_nan_of_arg (t c freq f : JsNum ℝ) (params : CParams (JsNum ℝ))
    (phiOffset : JsNum ℝ)
    (h : (-params.kSteepness * (t - params.tMid
      + calculatePhi c freq f params.alpha params.beta params.gamma params.freqMax
      + phiOffset)) = nan) :
    calculateC (JsNum.liftMath (JsMath.mk Real.exp Real.log Real.sqrt)) t c freq f params phiOffset = nan := by
  unfold calculateC
  simp only [h, liftMath_exp_nan, add_nan, div_nan]

/-- With `kSteepness = 0` and the other parameters at their defaults, the offset
is `-Infinity`. -/
theorem zeroSteepness_offset :
    runOffset (JsNum.liftMath (JsMath.mk Real.exp Real.log Real.sqrt)) (ofParams (zeroSteepnessParams ℝ)) = inf true := by
  have hphi : IsFinite (calculatePhi (fin (0.1 : ℝ)) (fin 0.5) (fin (-0.9)) (fin 1.0) (fin 1.0)
      (fin 0.5) (fin 3.0)) :=
    calculatePhi_isFinite _ _ _ _ _ _ _ trivial trivial trivial trivial trivial trivial trivial
      (by simp only [toField]; norm_num)
  have hlog : (0 : ℝ) < Real.log (1.0 / 0.1 - 1) := Real.log_pos (by norm_num)
  simp only [runOffset, calculatePhiOffset, ofParams, zeroSteepnessParams, defaultParams]
  rw [fin_div_fin (by norm_num) (by norm_num), one_def, fin_sub_fin,
    liftMath_log_fin_of_pos _ (by norm_num), neg_fin_zero, fin_div_negZero_of_pos hlog]
  exact add_inf_of_isFinite (isFinite_sub (isFinite_fin _) hphi) true

/-- When its `c` argument is NaN, `calculateFreq` is NaN under either law. -/
theorem calculateFreq_eq_nan_of_c (freq delta f : JsNum ℝ) (useLogFreq : Bool) :
    calculateFreq (JsNum.liftMath (JsMath.mk Real.exp Real.log Real.sqrt)) freq delta nan f useLogFreq = nan := by
  unfold calculateFreq
  cases useLogFreq <;> simp [nan_add, nan_div, mul_nan, nan_mul, add_nan]

/-- Under the square-root law a `freq` below `-0.1` makes `calculateFreq` NaN. -/
theorem calculateFreq_eq_nan_of_lt (q : ℝ) (hq : q + 0.1 < 0) (delta c f : JsNum ℝ) :
    calculateFreq (JsNum.liftMath (JsMath.mk Real.exp Real.log Real.sqrt)) (fin q) delta c f true = nan := by
  unfold calculateFreq
  simp only [if_true, ofScientific_def, fin_add_fin, liftMath_sqrt_fin_of_neg _ hq, mul_nan,
    add_nan]

/-- With `kSteepness = 0` and the other parameters at their defaults, the `c`
computed by the first update is NaN. -/
theorem zeroSteepness_c_one :
    (trajectory (JsNum.liftMath (JsMath.mk Real.exp Real.log Real.sqrt)) (ofParams (zeroSteepnessParams ℝ)) 1).1 = nan := by
  simp only [trajectory]
  apply calculateC_eq_nan_of_arg
  rw [zeroSteepness_offset, add_inf_of_isFinite _ true]
  · show -(fin (0 : ℝ)) * inf true = nan
    rw [neg_fin_zero]
    exact negZero_mul_inf true
  · refine isFinite_add (isFinite_sub (isFinite_natCast 0) (isFinite_fin _)) ?_
    refine calculatePhi_isFinite _ _ _ _ _ _ _ (isFinite_fin _) (isFinite_fin _) ?_
      (isFinite_fin _) (isFinite_fin _) (isFinite_fin _) (isFinite_fin _) ?_
    · exact calculateF_isFinite _ _ _ _ _ (isFinite_natCast 0) (isFinite_fin _) (isFinite_fin _)
        (isFinite_fin _) (isFinite_fin _)
    · show (3.0 : ℝ) ≠ 0
      norm_num

/-- With `kSteepness = 0` and the other parameters at their defaults, the `freq`
computed by the first update is NaN. -/
theorem zeroSteepness_freq_one :
    (trajectory (JsNum.liftMath (JsMath.mk Real.exp Real.log Real.sqrt)) (ofParams (zeroSteepnessParams ℝ)) 1).2 = nan := by
  have h := zeroSteepness_c_one
  simp only [trajectory] at h ⊢
  rw [h]
  exact calculateFreq_eq_nan_of_c _ _ _ _

/-- With `freqMax = 0`, a positive `freq` and a positive `alpha`, `calculatePhi` is
`+Infinity` on finite arguments. -/
theorem calculatePhi_eq_inf (c f beta gamma : JsNum ℝ) (q a : ℝ) (hq : 0 < q) (ha : 0 < a)
    (hc : IsFinite c) (hf : IsFinite f) (hb : IsFinite beta) (hg : IsFinite gamma) :
    calculatePhi c (fin q) f (fin a) beta gamma (fin 0) = inf false := by
  unfold calculatePhi
  simp only
  rw [fin_div_fin_zero_of_pos hq, fin_mul_inf_of_pos ha,
    inf_add_of_isFinite (isFinite_mul hb (isFinite_add hf isFinite_one)),
    inf_add_of_isFinite (isFinite_mul hg hc)]
  rfl

/-- With `freqMax = 0` and the other parameters at their defaults, the offset is
`-Infinity`. -/
theorem zeroFreqMax_offset :
    runOffset (JsNum.liftMath (JsMath.mk Real.exp Real.log Real.sqrt)) (ofParams (zeroFreqMaxParams ℝ)) = inf true := by
  show fin (25 : ℝ) - calculatePhi (fin (0.1 : ℝ)) (fin 0.5) (fin (-0.9)) (fin 1.0) (fin 1.0)
      (fin 0.5) (fin 0)
    + (JsNum.liftMath (JsMath.mk Real.exp Real.log Real.sqrt)).log (fin (1.0 : ℝ) / fin 0.1 - 1) / -(fin (0.2 : ℝ)) = inf true
  rw [calculatePhi_eq_inf _ _ _ _ _ _ (by norm_num) (by norm_num) (isFinite_fin _)
    (isFinite_fin _) (isFinite_fin _) (isFinite_fin _), sub_inf_of_isFinite (isFinite_fin _)]
  refine inf_add_of_isFinite (isFinite_div ?_ (isFinite_neg (isFinite_fin _)) ?_) true
  · rw [fin_div_fin (by norm_num) (by norm_num), one_def, fin_sub_fin,
      liftMath_log_fin_of_pos _ (by norm_num)]
    exact isFinite_fin _
  · rw [neg_def, neg, if_neg (by norm_num)]
    show -(0.2 : ℝ) ≠ 0
    norm_num

/-- With `freqMax = 0` and the other parameters at their defaults, the `c`
computed by the first update is NaN. -/
theorem zeroFreqMax_c_one :
    (trajectory (JsNum.liftMath (JsMath.mk Real.exp Real.log Real.sqrt)) (ofParams (zeroFreqMaxParams ℝ)) 1).1 = nan := by
  simp only [trajectory]
  apply calculateC_eq_nan_of_arg
  rw [zeroFreqMax_offset]
  have hphi : calculatePhi (ofParams (zeroFreqMaxParams ℝ)).initialC
      (ofParams (zeroFreqMaxParams ℝ)).initialFreq
      (calculateF (JsNum.liftMath (JsMath.mk Real.exp Real.log Real.sqrt)) ((0 : Nat) : JsNum ℝ)
        (ofParams (zeroFreqMaxParams ℝ)).fKSteepness (ofParams (zeroFreqMaxParams ℝ)).fTMid
        (ofParams (zeroFreqMaxParams ℝ)).fMin (ofParams (zeroFreqMaxParams ℝ)).fMax)
      (runParams (ofParams (zeroFreqMaxParams ℝ))).alpha
      (runParams (ofParams (zeroFreqMaxParams ℝ))).beta
      (runParams (ofParams (zeroFreqMaxParams ℝ))).gamma
      (runParams (ofParams (zeroFreqMaxParams ℝ))).freqMax = inf false :=
    calculatePhi_eq_inf _ _ _ _ (0.5 : ℝ) (1.0 : ℝ) (by norm_num) (by norm_num) (isFinite_fin _)
      (calculateF_isFinite _ _ _ _ _ (isFinite_natCast 0) (isFinite_fin _) (isFinite_fin _)
        (isFinite_fin _) (isFinite_fin _))
      (isFinite_fin _) (isFinite_fin _)
  rw [hphi, add_inf_of_isFinite _ false]
  · show -(runParams (ofParams (zeroFreqMaxParams ℝ))).kSteepness * (inf false + inf (!false))
      = nan
    rw [inf_add_inf_opposite false, mul_nan]
  · exact isFinite_sub (isFinite_natCast 0) (isFinite_fin _)

/-- When its `freq` argument is NaN, `calculateC` is NaN. -/
theorem calculateC_eq_nan_of_freq (t c f : JsNum ℝ) (params : CParams (JsNum ℝ))
    (phiOffset : JsNum ℝ) : calculateC (JsNum.liftMath (JsMath.mk Real.exp Real.log Real.sqrt)) t c nan f params phiOffset = nan := by
  apply calculateC_eq_nan_of_arg
  rw [calculatePhi_eq_nan _ _ _ _ _ _ _ (nan_div _), add_nan, nan_add, mul_nan]

/-- With `freqMax = 0` and `initialFreq = 0`, the `phi` of the first state is NaN. -/
theorem zeroFreq_phi_zero :
    (pointAt (JsNum.liftMath (JsMath.mk Real.exp Real.log Real.sqrt)) (ofParams (zeroFreqParams ℝ)) 0).phi = nan :=
  calculatePhi_eq_nan _ _ _ _ _ _ _ fin_zero_div_fin_zero

/-- With `initialFreq = -1` under the square-root law, the `freq` computed by the
first update is NaN. -/
theorem negativeFreq_freq_one :
    (trajectory (JsNum.liftMath (JsMath.mk Real.exp Real.log Real.sqrt)) (ofParams (negativeFreqParams ℝ)) 1).2 = nan := by
  simp only [trajectory]
  exact calculateFreq_eq_nan_of_lt (-1) (by norm_num) _ _ _

/-- With `initialFreq = -1` under the square-root law, the `c` computed by the
second update is NaN. -/
theorem negativeFreq_c_two :
    (trajectory (JsNum.liftMath (JsMath.mk Real.exp Real.log Real.sqrt)) (ofParams (negativeFreqParams ℝ)) 2).1 = nan := by
  have h := negativeFreq_freq_one
  simp only [trajectory] at h ⊢
  rw [h]
  exact calculateC_eq_nan_of_freq _ _ _ _ _

/-- With `freqMax = 0` and the other parameters at their defaults, the `freq`
computed by the first update is NaN. -/
theorem zeroFreqMax_freq_one :
    (trajectory (JsNum.liftMath (JsMath.mk Real.exp Real.log Real.sqrt)) (ofParams (zeroFreqMaxParams ℝ)) 1).2 = nan := by
  have h := zeroFreqMax_c_one
  simp only [trajectory] at h ⊢
  rw [h]
  exact calculateFreq_eq_nan_of_c _ _ _ _

end Special

section Exact

variable {α : Type} [LinearOrderedField α]

/-- One frequency update over the reals does not decrease a non-negative `freq`
when `delta`, `c` and `f + 1` are non-negative. -/
theorem le_calculateFreq_real (freq delta c f : ℝ) (useLogFreq : Bool)
    (hfreq : 0 ≤ freq) (hdelta : 0 ≤ delta) (hc : 0 ≤ c) (hf : -1 ≤ f) :
    freq ≤ calculateFreq (JsMath.mk Real.exp Real.log Real.sqrt) freq delta c f useLogFreq := by
  have hinf : 0 ≤ (c + (f + 1.0)) / 2 := by
    have : (0 : ℝ) ≤ f + 1.0 := by norm_num; linarith
    linarith
  unfold calculateFreq
  cases useLogFreq
  · simp only [Bool.false_eq_true, if_false]
    have : 0 ≤ delta * ((c + (f + 1.0)) / 2) * freq * 0.8 := by positivity
    linarith
  · simp only [if_true]
    have : 0 ≤ delta * ((c + (f + 1.0)) / 2) * Real.sqrt (freq + 0.1) :=
      mul_nonneg (mul_nonneg hdelta hinf) (Real.sqrt_nonneg _)
    linarith

/-- Over the reals the C logistic is non-negative when `cMax` is. -/
theorem calculateC_nonneg_real (t c freq f : ℝ) (params : CParams ℝ) (phiOffset : ℝ)
    (hM : 0 ≤ params.cMax) :
    0 ≤ calculateC (JsMath.mk Real.exp Real.log Real.sqrt) t c freq f params phiOffset := by
  unfold calculateC
  exact div_nonneg hM (by positivity)

/-- Over the reals the F logistic stays at or above `fMin` when `fMin ≤ fMax`. -/
theorem fMin_le_calculateF_real (t fKSteepness fTMid fMin fMax : ℝ) (h : fMin ≤ fMax) :
    fMin ≤ calculateF (JsMath.mk Real.exp Real.log Real.sqrt) t fKSteepness fTMid fMin fMax := by
  unfold calculateF
  have : 0 ≤ (fMax - fMin) / (1 + Real.exp (-fKSteepness * (t - fTMid))) :=
    div_nonneg (by linarith) (by positivity)
  simpa using this

/-- On `sampleParams` over the reals every emitted state has `c ≥ 0` and `f ≥ -1`. -/
theorem sampleParams_states_nonneg :
    ∀ s ∈ generateSimulation (JsMath.mk Real.exp Real.log Real.sqrt) (sampleParams ℝ),
      0 ≤ s.c ∧ -1 ≤ s.f := by
  intro s hs
  obtain ⟨i, hi, rfl⟩ := mem_generateSimulation _ _ s hs
  refine ⟨?_, ?_⟩
  · cases i with
    | zero => simp [pointAt, trajectory, sampleParams]
    | succ i =>
      simp only [pointAt, trajectory]
      exact calculateC_nonneg_real _ _ _ _ _ _ (by simp [runParams, sampleParams])
  · exact fMin_le_calculateF_real _ _ _ (-1) 0 (by norm_num)

/-- Over the reals the C logistic lies strictly between `0` and a positive `cMax`. -/
theorem calculateC_pos_lt_real (t c freq f : ℝ) (params : CParams ℝ) (phiOffset : ℝ)
    (hM : 0 < params.cMax) :
    0 < calculateC (JsMath.mk Real.exp Real.log Real.sqrt) t c freq f params phiOffset ∧
    calculateC (JsMath.mk Real.exp Real.log Real.sqrt) t c freq f params phiOffset < params.cMax := by
  unfold calculateC
  have he : 0 < Real.exp (-params.kSteepness * (t - params.tMid
      + calculatePhi c freq f params.alpha params.beta params.gamma params.freqMax
      + phiOffset)) := Real.exp_pos _
  exact ⟨div_pos hM (by linarith), div_lt_self hM (by linarith)⟩

/-- Over the reals the F logistic is non-decreasing in `t` when `fKSteepness ≥ 0`
and `fMin ≤ fMax`. -/
theorem calculateF_mono_real (t₁ t₂ fKSteepness fTMid fMin fMax : ℝ) (hk : 0 ≤ fKSteepness)
    (h : fMin ≤ fMax) (ht : t₁ ≤ t₂) :
    calculateF (JsMath.mk Real.exp Real.log Real.sqrt) t₁ fKSteepness fTMid fMin fMax
      ≤ calculateF (JsMath.mk Real.exp Real.log Real.sqrt) t₂ fKSteepness fTMid fMin fMax := by
  unfold calculateF
  have he : 0 < Real.exp (-fKSteepness * (t₂ - fTMid)) := Real.exp_pos _
  have hexp : Real.exp (-fKSteepness * (t₂ - fTMid)) ≤ Real.exp (-fKSteepness * (t₁ - fTMid)) := by
    rw [Real.exp_le_exp]
    nlinarith
  have : (fMax - fMin) / (1 + Real.exp (-fKSteepness * (t₁ - fTMid)))
      ≤ (fMax - fMin) / (1 + Real.exp (-fKSteepness * (t₂ - fTMid))) :=
    div_le_div_of_nonneg_left (by linarith) (by linarith) (by linarith)
  simp only
  linarith

/-- Over the reals, with `0 < initialC < cMax`, the loop variable `currentC` stays
strictly between `0` and `cMax`. -/
theorem trajectory_c_bounds_real (p : Params ℝ) (hM : 0 < p.cMax) (h0 : 0 < p.initialC)
    (h1 : p.initialC < p.cMax) (i : Nat) :
    0 < (trajectory (JsMath.mk Real.exp Real.log Real.sqrt) p i).1 ∧ (trajectory (JsMath.mk Real.exp Real.log Real.sqrt) p i).1 < p.cMax := by
  cases i with
  | zero => exact ⟨h0, h1⟩
  | succ i =>
    simp only [trajectory]
    exact calculateC_pos_lt_real _ _ _ _ (runParams p) _ hM

/-- Over the reals, with `initialFreq > 0`, `delta ≥ 0`, `0 < initialC < cMax` and
`-1 ≤ fMin ≤ fMax`, the loop variable `currentFreq` never drops below `initialFreq`
and never decreases. -/
theorem trajectory_freq_mono_real (p : Params ℝ) (hfreq : 0 < p.initialFreq)
    (hdelta : 0 ≤ p.delta) (hM : 0 < p.cMax) (h0 : 0 < p.initialC) (h1 : p.initialC < p.cMax)
    (hmin : -1 ≤ p.fMin) (hle : p.fMin ≤ p.fMax) (i : Nat) :
    p.initialFreq ≤ (trajectory (JsMath.mk Real.exp Real.log Real.sqrt) p i).2 ∧
    (trajectory (JsMath.mk Real.exp Real.log Real.sqrt) p i).2 ≤ (trajectory (JsMath.mk Real.exp Real.log Real.sqrt) p (i + 1)).2 := by
  have hstep : ∀ j, 0 ≤ (trajectory (JsMath.mk Real.exp Real.log Real.sqrt) p j).2 →
      (trajectory (JsMath.mk Real.exp Real.log Real.sqrt) p j).2 ≤ (trajectory (JsMath.mk Real.exp Real.log Real.sqrt) p (j + 1)).2 := by
    intro j hj
    have hc := (trajectory_c_bounds_real p hM h0 h1 (j + 1)).1
    simp only [trajectory] at hc ⊢
    exact le_calculateFreq_real _ _ _ _ _ hj hdelta (le_of_lt hc)
      (le_trans hmin (fMin_le_calculateF_real _ _ _ _ _ hle))
  have hlow : ∀ j, p.initialFreq ≤ (trajectory (JsMath.mk Real.exp Real.log Real.sqrt) p j).2 := by
    intro j
    induction j with
    | zero => exact le_refl _
    | succ j ih => exact le_trans ih (hstep j (le_trans (le_of_lt hfreq) ih))
  exact ⟨hlow i, hstep i (le_trans (le_of_lt hfreq) (hlow i))⟩

/-- Over the reals `calculatePhi` loses at most `1` in one step when the weighted
sum inside it loses at most `1`. -/
theorem calculatePhi_sub_one_le (c c' freq freq' f f' alpha beta gamma freqMax : ℝ)
    (h : alpha * (freq / freqMax) + beta * (f + 1) + gamma * c
      ≤ alpha * (freq' / freqMax) + beta * (f' + 1) + gamma * c' + 1) :
    calculatePhi c freq f alpha beta gamma freqMax
      ≤ calculatePhi c' freq' f' alpha beta gamma freqMax + 1 := by
  unfold calculatePhi
  simp only
  have h1 := le_max_left (0 : ℝ) (alpha * (freq' / freqMax) + beta * (f' + 1) + gamma * c')
  have h2 := le_max_right (0 : ℝ) (alpha * (freq' / freqMax) + beta * (f' + 1) + gamma * c')
  exact max_le (by linarith) (by linarith)

/-- Over the reals, with non-negative `kSteepness` and `cMax`, the C logistic does
not decrease when `t + phi` does not decrease. -/
theorem calculateC_mono_real (t t' c c' freq freq' f f' : ℝ) (params : CParams ℝ)
    (phiOffset : ℝ) (hM : 0 ≤ params.cMax) (hk : 0 ≤ params.kSteepness)
    (h : t + calculatePhi c freq f params.alpha params.beta params.gamma params.freqMax
      ≤ t' + calculatePhi c' freq' f' params.alpha params.beta params.gamma params.freqMax) :
    calculateC (JsMath.mk Real.exp Real.log Real.sqrt) t c freq f params phiOffset ≤ calculateC (JsMath.mk Real.exp Real.log Real.sqrt) t' c' freq' f' params phiOffset := by
  unfold calculateC
  simp only
  have he : 0 < Real.exp (-params.kSteepness * (t' - params.tMid
      + calculatePhi c' freq' f' params.alpha params.beta params.gamma params.freqMax
      + phiOffset)) := Real.exp_pos _
  apply div_le_div_of_nonneg_left hM (by linarith)
  have : Real.exp (-params.kSteepness * (t' - params.tMid
        + calculatePhi c' freq' f' params.alpha params.beta params.gamma params.freqMax
        + phiOffset))
      ≤ Real.exp (-params.kSteepness * (t - params.tMid
        + calculatePhi c freq f params.alpha params.beta params.gamma params.freqMax
        + phiOffset)) := by
    rw [Real.exp_le_exp]
    nlinarith
  linarith

/-- Over the reals, for valid parameters with non-negative steepnesses and weights
and `gamma * cMax ≤ 1`, the loop variable `currentC` does not decrease from the
first update on. -/
theorem trajectory_c_tail_mono_real (p : Params ℝ) (hM : 0 < p.cMax) (h0 : 0 < p.initialC)
    (h1 : p.initialC < p.cMax) (hk : 0 ≤ p.kSteepness) (ha : 0 ≤ p.alpha) (hb : 0 ≤ p.beta)
    (hg : 0 ≤ p.gamma) (hgM : p.gamma * p.cMax ≤ 1) (hfm : 0 ≤ p.freqMax)
    (hfreq : 0 < p.initialFreq) (hdelta : 0 ≤ p.delta) (hmin : -1 ≤ p.fMin)
    (hle : p.fMin ≤ p.fMax) (hfk : 0 ≤ p.fKSteepness) (j : Nat) :
    (trajectory (JsMath.mk Real.exp Real.log Real.sqrt) p (j + 1)).1 ≤ (trajectory (JsMath.mk Real.exp Real.log Real.sqrt) p (j + 2)).1 := by
  have hc := trajectory_c_bounds_real p hM h0 h1 j
  have hc' := trajectory_c_bounds_real p hM h0 h1 (j + 1)
  have hq := (trajectory_freq_mono_real p hfreq hdelta hM h0 h1 hmin hle j).2
  have hf : calculateF (JsMath.mk Real.exp Real.log Real.sqrt) (j : ℝ) p.fKSteepness p.fTMid p.fMin p.fMax
      ≤ calculateF (JsMath.mk Real.exp Real.log Real.sqrt) ((j + 1 : Nat) : ℝ) p.fKSteepness p.fTMid p.fMin p.fMax :=
    calculateF_mono_real _ _ _ _ _ _ hfk hle (by push_cast; linarith)
  have hqd : (trajectory (JsMath.mk Real.exp Real.log Real.sqrt) p j).2 / p.freqMax ≤ (trajectory (JsMath.mk Real.exp Real.log Real.sqrt) p (j + 1)).2 / p.freqMax :=
    div_le_div_of_nonneg_right hq hfm
  have hphi := calculatePhi_sub_one_le (trajectory (JsMath.mk Real.exp Real.log Real.sqrt) p j).1 (trajectory (JsMath.mk Real.exp Real.log Real.sqrt) p (j + 1)).1
    (trajectory (JsMath.mk Real.exp Real.log Real.sqrt) p j).2 (trajectory (JsMath.mk Real.exp Real.log Real.sqrt) p (j + 1)).2
    (calculateF (JsMath.mk Real.exp Real.log Real.sqrt) (j : ℝ) p.fKSteepness p.fTMid p.fMin p.fMax)
    (calculateF (JsMath.mk Real.exp Real.log Real.sqrt) ((j + 1 : Nat) : ℝ) p.fKSteepness p.fTMid p.fMin p.fMax)
    p.alpha p.beta p.gamma p.freqMax (by
      have e1 : p.alpha * ((trajectory (JsMath.mk Real.exp Real.log Real.sqrt) p j).2 / p.freqMax)
          ≤ p.alpha * ((trajectory (JsMath.mk Real.exp Real.log Real.sqrt) p (j + 1)).2 / p.freqMax) :=
        mul_le_mul_of_nonneg_left hqd ha
      have e2 : p.beta * (calculateF (JsMath.mk Real.exp Real.log Real.sqrt) (j : ℝ) p.fKSteepness p.fTMid p.fMin p.fMax + 1)
          ≤ p.beta * (calculateF (JsMath.mk Real.exp Real.log Real.sqrt) ((j + 1 : Nat) : ℝ) p.fKSteepness p.fTMid p.fMin p.fMax
            + 1) :=
        mul_le_mul_of_nonneg_left (by linarith) hb
      have e3 : p.gamma * (trajectory (JsMath.mk Real.exp Real.log Real.sqrt) p j).1 ≤ p.gamma * p.cMax :=
        mul_le_mul_of_nonneg_left (le_of_lt hc.2) hg
      have e4 : 0 ≤ p.gamma * (trajectory (JsMath.mk Real.exp Real.log Real.sqrt) p (j + 1)).1 := mul_nonneg hg (le_of_lt hc'.1)
      linarith)
  have key := calculateC_mono_real (j : ℝ) ((j + 1 : Nat) : ℝ)
    (trajectory (JsMath.mk Real.exp Real.log Real.sqrt) p j).1 (trajectory (JsMath.mk Real.exp Real.log Real.sqrt) p (j + 1)).1
    (trajectory (JsMath.mk Real.exp Real.log Real.sqrt) p j).2 (trajectory (JsMath.mk Real.exp Real.log Real.sqrt) p (j + 1)).2
    (calculateF (JsMath.mk Real.exp Real.log Real.sqrt) (j : ℝ) p.fKSteepness p.fTMid p.fMin p.fMax)
    (calculateF (JsMath.mk Real.exp Real.log Real.sqrt) ((j + 1 : Nat) : ℝ) p.fKSteepness p.fTMid p.fMin p.fMax)
    (runParams p) (runOffset (JsMath.mk Real.exp Real.log Real.sqrt) p) (le_of_lt hM) hk (by
      have hcast : (((j + 1 : Nat) : ℝ)) = (j : ℝ) + 1 := by push_cast; ring
      simp only [runParams]
      linarith)
  exact key

/-- Two parameter sets with the same seventeen field values are equal. -/
theorem params_eq_of_fields (p q : Params α)
    (h1 : p.initialC = q.initialC) (h2 : p.initialF = q.initialF)
    (h3 : p.initialFreq = q.initialFreq) (h4 : p.alpha = q.alpha) (h5 : p.beta = q.beta)
    (h6 : p.gamma = q.gamma) (h7 : p.kSteepness = q.kSteepness) (h8 : p.tMid = q.tMid)
    (h9 : p.fKSteepness = q.fKSteepness) (h10 : p.fTMid = q.fTMid) (h11 : p.delta = q.delta)
    (h12 : p.freqMax = q.freqMax) (h13 : p.cMax = q.cMax) (h14 : p.fMin = q.fMin)
    (h15 : p.fMax = q.fMax) (h16 : p.timeSteps = q.timeSteps)
    (h17 : p.useLogFreq = q.useLogFreq) : p = q := by
  cases p
  cases q
  simp_all

/-- Over the reals, with `0 < initialC < cMax` and `kSteepness ≠ 0`, the first
update of `currentC` is the calibrated logistic shifted by the gap between the
`phi` of step 0 and the `phi` used to calibrate. -/
theorem trajectory_one_c_real (p : Params ℝ) (h0 : 0 < p.initialC) (h1 : p.initialC < p.cMax)
    (hk : p.kSteepness ≠ 0) :
    (trajectory (JsMath.mk Real.exp Real.log Real.sqrt) p 1).1
      = p.cMax / (1 + (p.cMax / p.initialC - 1) * Real.exp (-p.kSteepness *
          (calculatePhi p.initialC p.initialFreq
              (calculateF (JsMath.mk Real.exp Real.log Real.sqrt) 0 p.fKSteepness p.fTMid p.fMin p.fMax)
              p.alpha p.beta p.gamma p.freqMax
            - calculatePhi p.initialC p.initialFreq p.initialF
              p.alpha p.beta p.gamma p.freqMax))) := by
  have hx : 0 < p.cMax / p.initialC - 1 := by
    rw [sub_pos, lt_div_iff₀ h0]
    linarith
  simp only [trajectory, calculateC, runParams, runOffset, calculatePhiOffset, Nat.cast_zero]
  generalize calculatePhi p.initialC p.initialFreq
    (calculateF (JsMath.mk Real.exp Real.log Real.sqrt) 0 p.fKSteepness p.fTMid p.fMin p.fMax)
    p.alpha p.beta p.gamma p.freqMax = phiE
  generalize calculatePhi p.initialC p.initialFreq p.initialF
    p.alpha p.beta p.gamma p.freqMax = phi0
  have hexp : -p.kSteepness * (0 - p.tMid + phiE
        + (p.tMid - phi0 + Real.log (p.cMax / p.initialC - 1) / -p.kSteepness))
      = Real.log (p.cMax / p.initialC - 1) + -p.kSteepness * (phiE - phi0) := by
    generalize Real.log (p.cMax / p.initialC - 1) = L
    ring_nf
    field_simp
  rw [hexp, Real.exp_add, Real.exp_log hx]

/-- In the default scenario over the reals the `phi` of step 0, computed from
`calculateF(0, ...)`, is smaller than the `phi` computed from `initialF`. -/
theorem defaultParams_first_phi_lt :
    calculatePhi (defaultParams ℝ).initialC (defaultParams ℝ).initialFreq
        (calculateF (JsMath.mk Real.exp Real.log Real.sqrt) 0 (defaultParams ℝ).fKSteepness (defaultParams ℝ).fTMid
          (defaultParams ℝ).fMin (defaultParams ℝ).fMax)
        (defaultParams ℝ).alpha (defaultParams ℝ).beta (defaultParams ℝ).gamma
        (defaultParams ℝ).freqMax
      < calculatePhi (defaultParams ℝ).initialC (defaultParams ℝ).initialFreq
        (defaultParams ℝ).initialF
        (defaultParams ℝ).alpha (defaultParams ℝ).beta (defaultParams ℝ).gamma
        (defaultParams ℝ).freqMax := by
  have hexp : (9 : ℝ) < Real.exp (18 / 5) := by
    have := Real.quadratic_le_exp_of_nonneg (show (0 : ℝ) ≤ 18 / 5 by norm_num)
    norm_num at this
    linarith
  have hfrac : 1 / (1 + Real.exp (18 / 5)) < (1 : ℝ) / 10 := by
    rw [div_lt_div_iff₀ (by linarith) (by norm_num)]
    linarith
  have hinv : (1 + Real.exp (18 / 5))⁻¹ < (1 : ℝ) / 10 := by
    rw [inv_eq_one_div]
    exact hfrac
  simp only [calculatePhi, calculateF, defaultParams]
  norm_num
  linarith

/-- A logistic value `M / (1 + x * exp (-k * d))` with `M, x, k > 0` is below
`M / (1 + x)` exactly when `d < 0`, and equal to it exactly when `d = 0`. -/
theorem shifted_logistic_compare (M x k d : ℝ) (hM : 0 < M) (hx : 0 < x) (hk : 0 < k) :
    (M / (1 + x * Real.exp (-k * d)) < M / (1 + x) ↔ d < 0) ∧
    (M / (1 + x * Real.exp (-k * d)) = M / (1 + x) ↔ d = 0) := by
  have hE : 0 < Real.exp (-k * d) := Real.exp_pos _
  have hden : 0 < 1 + x * Real.exp (-k * d) := by positivity
  have hden' : 0 < 1 + x := by linarith
  constructor
  · rw [div_lt_div_iff_of_pos_left hM hden hden']
    constructor
    · intro h
      have h1 : 1 < Real.exp (-k * d) := by
        by_contra hcon
        push_neg at hcon
        nlinarith
      have h2 : 0 < -k * d := by
        rw [← Real.exp_lt_exp, Real.exp_zero]
        exact h1
      by_contra hcon
      push_neg at hcon
      nlinarith
    · intro h
      have h2 : 0 < -k * d := by nlinarith
      have h1 : 1 < Real.exp (-k * d) := by
        rw [← Real.exp_zero, Real.exp_lt_exp]
        exact h2
      nlinarith
  · constructor
    · intro h
      have h3 : 1 + x * Real.exp (-k * d) = 1 + x := by
        have h4 := (div_eq_div_iff (ne_of_gt hden) (ne_of_gt hden')).mp h
        have h5 := mul_left_cancel₀ (ne_of_gt hM) h4
        linarith
      have h1 : Real.exp (-k * d) = 1 := by
        have : x * Real.exp (-k * d) = x * 1 := by linarith
        exact mul_left_cancel₀ (ne_of_gt hx) this
      have h2 : -k * d = 0 := by
        rw [← Real.exp_eq_one_iff]
        exact h1
      rcases mul_eq_zero.mp h2 with h | h
      · linarith
      · exact h
    · intro h
      rw [h]
      simp

/-- Over the reals, with `cMax > 0`, `0 < initialC < cMax` and `kSteepness > 0`,
the first update of `currentC` falls below (equals) `initialC` exactly when the
`phi` of step 0 is below (equals) the `phi` used to calibrate. -/
theorem trajectory_one_compare_real (p : Params ℝ) (hM : 0 < p.cMax) (h0 : 0 < p.initialC)
    (h1 : p.initialC < p.cMax) (hk : 0 < p.kSteepness) :
    ((trajectory (JsMath.mk Real.exp Real.log Real.sqrt) p 1).1 < p.initialC ↔
      calculatePhi p.initialC p.initialFreq
          (calculateF (JsMath.mk Real.exp Real.log Real.sqrt) 0 p.fKSteepness p.fTMid p.fMin p.fMax)
          p.alpha p.beta p.gamma p.freqMax
        < calculatePhi p.initialC p.initialFreq p.initialF
          p.alpha p.beta p.gamma p.freqMax) ∧
    ((trajectory (JsMath.mk Real.exp Real.log Real.sqrt) p 1).1 = p.initialC ↔
      calculatePhi p.initialC p.initialFreq
          (calculateF (JsMath.mk Real.exp Real.log Real.sqrt) 0 p.fKSteepness p.fTMid p.fMin p.fMax)
          p.alpha p.beta p.gamma p.freqMax
        = calculatePhi p.initialC p.initialFreq p.initialF
          p.alpha p.beta p.gamma p.freqMax) := by
  have hx : 0 < p.cMax / p.initialC - 1 := by
    rw [sub_pos, lt_div_iff₀ h0]
    linarith
  have hc0 : p.initialC = p.cMax / (1 + (p.cMax / p.initialC - 1)) := by
    have hC : p.initialC ≠ 0 := ne_of_gt h0
    have hM' : p.cMax ≠ 0 := ne_of_gt hM
    field_simp
  have hcmp := shifted_logistic_compare p.cMax (p.cMax / p.initialC - 1) p.kSteepness
    (calculatePhi p.initialC p.initialFreq
        (calculateF (JsMath.mk Real.exp Real.log Real.sqrt) 0 p.fKSteepness p.fTMid p.fMin p.fMax)
        p.alpha p.beta p.gamma p.freqMax
      - calculatePhi p.initialC p.initialFreq p.initialF
        p.alpha p.beta p.gamma p.freqMax) hM hx hk
  rw [trajectory_one_c_real p h0 h1 (ne_of_gt hk)]
  rw [sub_neg, sub_eq_zero, ← hc0] at hcmp
  exact hcmp

/-! ### Claims -/

/-- C2 as stated fails: on `sampleParams` over the reals the `freq` emitted at
step 1 differs from `calculateFreq` applied to the `c` emitted at step 0. -/
theorem freq_not_from_old_c_sample :
    ∃ s s' : DataPoint ℝ,
      (generateSimulation (JsMath.mk Real.exp Real.log Real.sqrt) (sampleParams ℝ))[0]? = some s ∧
      (generateSimulation (JsMath.mk Real.exp Real.log Real.sqrt) (sampleParams ℝ))[1]? = some s' ∧
      s'.freq ≠ calculateFreq (JsMath.mk Real.exp Real.log Real.sqrt) s.freq
        (sampleParams ℝ).delta s.c s.f (sampleParams ℝ).useLogFreq := by
  refine ⟨_, _, generateSimulation_getElem? _ _ 0 (by simp [sampleParams]),
    generateSimulation_getElem? _ _ 1 (by simp [sampleParams]), ?_⟩
  have hne : Real.exp (-(2 / 5)) ≠ 1 := by
    rw [Ne, Real.exp_eq_one_iff]
    norm_num
  have hpos : 0 < Real.exp (-(2 / 5)) := Real.exp_pos _
  simp only [pointAt, trajectory, calculateFreq, calculateC, calculateF, calculatePhi,
    runParams, runOffset, calculatePhiOffset, sampleParams]
  norm_num
  intro h
  apply hne
  field_simp at h
  linarith

/-- C2, amended. For every parameter set and every step `t < timeSteps`, the
`freq` emitted at step `t + 1` is `calculateFreq` of the `freq` and `f` emitted at
step `t` and of the `c` emitted at step `t + 1`: the update block assigns
`currentC` before it calls `calculateFreq`. -/
theorem freq_step_uses_new_c (M : JsMath α) (p : Params α) (t : Nat) (ht : t < p.timeSteps) :
    ∃ s s' : DataPoint α,
      (generateSimulation M p)[t]? = some s ∧ (generateSimulation M p)[t + 1]? = some s' ∧
      s'.freq = calculateFreq M s.freq p.delta s'.c s.f p.useLogFreq :=
  ⟨_, _, generateSimulation_getElem? M p t (by omega),
    generateSimulation_getElem? M p (t + 1) (by omega), rfl⟩

/-- Witness of the amended C2 on `sampleParams` at `t = 0`. -/
theorem freq_step_uses_new_c_witness :
    0 < (sampleParams ℝ).timeSteps ∧
    ∃ s s' : DataPoint ℝ,
      (generateSimulation (JsMath.mk Real.exp Real.log Real.sqrt) (sampleParams ℝ))[0]? = some s ∧
      (generateSimulation (JsMath.mk Real.exp Real.log Real.sqrt) (sampleParams ℝ))[0 + 1]?
        = some s' ∧
      s'.freq = calculateFreq (JsMath.mk Real.exp Real.log Real.sqrt) s.freq
        (sampleParams ℝ).delta s'.c s.f (sampleParams ℝ).useLogFreq :=
  ⟨by simp [sampleParams], freq_step_uses_new_c _ (sampleParams ℝ) 0 (by simp [sampleParams])⟩

/-- C3. For every parameter set and every step `t < timeSteps`, the `c` emitted
at step `t + 1` is `cMax / (1 + exp (-kSteepness * (t - tMid + phi[t] + phiOffset)))`,
where `phi[t]` is the `phi` emitted at step `t`, itself `calculatePhi` of the `c`,
`freq` and `f` emitted at step `t`, and `phiOffset` is the one value returned by
`calculatePhiOffset` on the initial triple. -/
theorem c_step_uses_current_state (M : JsMath α) (p : Params α) (t : Nat)
    (ht : t < p.timeSteps) :
    ∃ s s' : DataPoint α,
      (generateSimulation M p)[t]? = some s ∧ (generateSimulation M p)[t + 1]? = some s' ∧
      s.phi = calculatePhi s.c s.freq s.f p.alpha p.beta p.gamma p.freqMax ∧
      s'.c = p.cMax / (1 + M.exp (-p.kSteepness * ((t : α) - p.tMid + s.phi
        + calculatePhiOffset M p.initialC p.initialF p.initialFreq
            p.alpha p.beta p.gamma p.freqMax p.kSteepness p.tMid p.cMax))) :=
  ⟨_, _, generateSimulation_getElem? M p t (by omega),
    generateSimulation_getElem? M p (t + 1) (by omega), rfl, rfl⟩

/-- Witness of C3 on `sampleParams` at `t = 0`. -/
theorem c_step_uses_current_state_witness :
    0 < (sampleParams ℝ).timeSteps ∧
    ∃ s s' : DataPoint ℝ,
      (generateSimulation (JsMath.mk Real.exp Real.log Real.sqrt) (sampleParams ℝ))[0]? = some s ∧
      (generateSimulation (JsMath.mk Real.exp Real.log Real.sqrt) (sampleParams ℝ))[0 + 1]?
        = some s' ∧
      s.phi = calculatePhi s.c s.freq s.f (sampleParams ℝ).alpha (sampleParams ℝ).beta
        (sampleParams ℝ).gamma (sampleParams ℝ).freqMax ∧
      s'.c = (sampleParams ℝ).cMax / (1 + Real.exp (-(sampleParams ℝ).kSteepness
        * (((0 : Nat) : ℝ) - (sampleParams ℝ).tMid + s.phi
        + calculatePhiOffset (JsMath.mk Real.exp Real.log Real.sqrt) (sampleParams ℝ).initialC
            (sampleParams ℝ).initialF (sampleParams ℝ).initialFreq (sampleParams ℝ).alpha
            (sampleParams ℝ).beta (sampleParams ℝ).gamma (sampleParams ℝ).freqMax
            (sampleParams ℝ).kSteepness (sampleParams ℝ).tMid (sampleParams ℝ).cMax))) :=
  ⟨by simp [sampleParams],
    c_step_uses_current_state _ (sampleParams ℝ) 0 (by simp [sampleParams])⟩

/-- C4. For every parameter set (any `timeSteps : Nat`) the emitted sequence has
exactly `timeSteps + 1` entries, the `time` fields read `0, 1, ..., timeSteps` in
order (entry `i` has `time = i`), and they are strictly increasing. -/
theorem generateSimulation_length_and_times (M : JsMath α) (p : Params α) :
    (generateSimulation M p).length = p.timeSteps + 1 ∧
    (generateSimulation M p).map DataPoint.time = List.range (p.timeSteps + 1) ∧
    List.Pairwise (fun a b : Nat => a < b) ((generateSimulation M p).map DataPoint.time) := by
  have hmap : (generateSimulation M p).map DataPoint.time = List.range (p.timeSteps + 1) := by
    rw [generateSimulation_eq_map, List.map_map]
    conv_rhs => rw [← List.map_id (List.range (p.timeSteps + 1))]
    rfl
  refine ⟨?_, hmap, ?_⟩
  · rw [generateSimulation_eq_map, List.length_map, List.length_range]
  · rw [hmap]
    exact List.pairwise_lt_range _

/-- C5. For every parameter set the first emitted state exists and its `c` field
is `initialC`. -/
theorem first_state_c_eq_initialC (M : JsMath α) (p : Params α) :
    ∃ s : DataPoint α, (generateSimulation M p)[0]? = some s ∧ s.c = p.initialC :=
  ⟨_, generateSimulation_getElem? M p 0 (Nat.zero_le _), rfl⟩

/-- C6. Frequency monotonicity over the reals: with `initialFreq > 0`, `delta ≥ 0`
and every emitted state having `c ≥ 0` and `f ≥ -1`, the `freq` emitted at step `t`
is at most the `freq` emitted at step `t + 1`, for every `t < timeSteps` and either
value of `useLogFreq`. -/
theorem freq_nondecreasing (p : Params ℝ) (hfreq : 0 < p.initialFreq) (hdelta : 0 ≤ p.delta)
    (hstate : ∀ s ∈ generateSimulation (JsMath.mk Real.exp Real.log Real.sqrt) p,
      0 ≤ s.c ∧ -1 ≤ s.f)
    (t : Nat) (ht : t < p.timeSteps) :
    ∃ s s' : DataPoint ℝ,
      (generateSimulation (JsMath.mk Real.exp Real.log Real.sqrt) p)[t]? = some s ∧
      (generateSimulation (JsMath.mk Real.exp Real.log Real.sqrt) p)[t + 1]? = some s' ∧
      s.freq ≤ s'.freq := by
  have hc : ∀ i, i ≤ p.timeSteps →
      0 ≤ (trajectory (JsMath.mk Real.exp Real.log Real.sqrt) p i).1 := fun i hi =>
    (hstate _ (pointAt_mem _ p i hi)).1
  have hf : ∀ i, i ≤ p.timeSteps →
      -1 ≤ calculateF (JsMath.mk Real.exp Real.log Real.sqrt) (i : ℝ)
        p.fKSteepness p.fTMid p.fMin p.fMax := fun i hi =>
    (hstate _ (pointAt_mem _ p i hi)).2
  have hstep : ∀ i, i < p.timeSteps →
      0 ≤ (trajectory (JsMath.mk Real.exp Real.log Real.sqrt) p i).2 →
      (trajectory (JsMath.mk Real.exp Real.log Real.sqrt) p i).2
        ≤ (trajectory (JsMath.mk Real.exp Real.log Real.sqrt) p (i + 1)).2 := by
    intro i hi h0
    have h1 := hc (i + 1) (by omega)
    simp only [trajectory] at h1 ⊢
    exact le_calculateFreq_real _ _ _ _ _ h0 hdelta h1 (hf i (by omega))
  have hnonneg : ∀ i, i ≤ p.timeSteps →
      0 ≤ (trajectory (JsMath.mk Real.exp Real.log Real.sqrt) p i).2 := by
    intro i
    induction i with
    | zero => intro _; exact le_of_lt hfreq
    | succ i ih =>
      intro hi
      exact le_trans (ih (by omega)) (hstep i (by omega) (ih (by omega)))
  exact ⟨_, _, generateSimulation_getElem? _ p t (by omega),
    generateSimulation_getElem? _ p (t + 1) (by omega), hstep t ht (hnonneg t (by omega))⟩

/-- Witness of C6 on `sampleParams` at `t = 0`. -/
theorem freq_nondecreasing_witness :
    0 < (sampleParams ℝ).initialFreq ∧ 0 ≤ (sampleParams ℝ).delta ∧
    0 < (sampleParams ℝ).timeSteps ∧
    ∃ s s' : DataPoint ℝ,
      (generateSimulation (JsMath.mk Real.exp Real.log Real.sqrt) (sampleParams ℝ))[0]? = some s ∧
      (generateSimulation (JsMath.mk Real.exp Real.log Real.sqrt) (sampleParams ℝ))[0 + 1]?
        = some s' ∧
      s.freq ≤ s'.freq :=
  ⟨by simp [sampleParams], by simp [sampleParams], by simp [sampleParams],
    freq_nondecreasing (sampleParams ℝ) (by simp [sampleParams]) (by simp [sampleParams])
      sampleParams_states_nonneg 0 (by simp [sampleParams])⟩

/-- C7 as stated fails: with `freqMax = 0` and `initialFreq = 0` (the default
parameters otherwise), on JavaScript numbers, the `phi` of the first emitted state
is NaN, the value of `0 / 0` carried through `Math.max`, and NaN is not `≥ 0`. -/
theorem phi_not_nonneg_zero_freq :
    ∃ s : DataPoint (JsNum ℝ),
      (generateSimulation (JsNum.liftMath (JsMath.mk Real.exp Real.log Real.sqrt)) (JsNum.ofParams (zeroFreqParams ℝ)))[0]? = some s ∧
      s.phi = JsNum.nan ∧ ¬ (0 ≤ s.phi) := by
  refine ⟨_, generateSimulation_getElem? _ _ 0 (Nat.zero_le _), zeroFreq_phi_zero, ?_⟩
  rw [zeroFreq_phi_zero]
  exact JsNum.not_le_nan _

/-- C7, amended. For every parameter set of JavaScript numbers, with no condition
on the signs of the weights or inputs, the `phi` of every emitted state is
`Math.max(0, alpha * (freq / freqMax) + beta * (f + 1) + gamma * c)` of its own
fields; it is NaN exactly when that weighted sum is NaN, and `≥ 0` otherwise. -/
theorem phi_nonneg_unless_nan (M : JsMath (JsNum α)) (p : Params (JsNum α))
    (s : DataPoint (JsNum α)) (hs : s ∈ generateSimulation M p) :
    s.phi = Max.max 0 (p.alpha * (s.freq / p.freqMax) + p.beta * (s.f + 1) + p.gamma * s.c) ∧
    (s.phi = JsNum.nan ↔
      p.alpha * (s.freq / p.freqMax) + p.beta * (s.f + 1) + p.gamma * s.c = JsNum.nan) ∧
    (s.phi ≠ JsNum.nan → 0 ≤ s.phi) := by
  obtain ⟨i, _, rfl⟩ := mem_generateSimulation M p s hs
  refine ⟨rfl, JsNum.max_zero_eq_nan_iff _, fun h => JsNum.zero_le_max_zero _ ?_⟩
  intro hw
  exact h ((JsNum.max_zero_eq_nan_iff _).mpr hw)

/-- Witness of the amended C7: the state emitted at step 1 on `sampleParams`, as
JavaScript numbers with the real `exp`, `log` and `sqrt`. -/
theorem phi_nonneg_unless_nan_witness :
    ∃ s : DataPoint (JsNum ℝ),
      s ∈ generateSimulation (JsNum.liftMath (JsMath.mk Real.exp Real.log Real.sqrt)) (JsNum.ofParams (sampleParams ℝ)) ∧
      (s.phi ≠ JsNum.nan → 0 ≤ s.phi) :=
  ⟨_, pointAt_mem _ _ 1 (by simp [JsNum.ofParams, sampleParams]),
    (phi_nonneg_unless_nan _ _ _
      (pointAt_mem _ _ 1 (by simp [JsNum.ofParams, sampleParams]))).2.2⟩

/-- C8. Two parameter sets that agree on `fKSteepness`, `fTMid`, `fMin`, `fMax`
and `timeSteps`, and differ arbitrarily elsewhere, emit the same `f` sequence;
the `f` emitted at step `t` is `calculateF(t, fKSteepness, fTMid, fMin, fMax)`. -/
theorem f_sequence_depends_on_F_params_only (M : JsMath α) (p q : Params α)
    (hk : p.fKSteepness = q.fKSteepness) (hmid : p.fTMid = q.fTMid)
    (hmin : p.fMin = q.fMin) (hmax : p.fMax = q.fMax) (hsteps : p.timeSteps = q.timeSteps) :
    (generateSimulation M p).map DataPoint.f = (generateSimulation M q).map DataPoint.f ∧
    (generateSimulation M p).map DataPoint.f
      = (List.range (p.timeSteps + 1)).map
          (fun t : Nat => calculateF M (t : α) p.fKSteepness p.fTMid p.fMin p.fMax) := by
  have key : ∀ r : Params α, (generateSimulation M r).map DataPoint.f
      = (List.range (r.timeSteps + 1)).map
          (fun t : Nat => calculateF M (t : α) r.fKSteepness r.fTMid r.fMin r.fMax) := by
    intro r
    rw [generateSimulation_eq_map, List.map_map]
    rfl
  refine ⟨?_, key p⟩
  rw [key p, key q, hk, hmid, hmin, hmax, hsteps]

/-- Witness of C8: `sampleParams` and `sampleParamsAlt` over the reals. -/
theorem f_sequence_depends_on_F_params_only_witness :
    (sampleParams ℝ).initialC ≠ (sampleParamsAlt ℝ).initialC ∧
    (sampleParams ℝ).useLogFreq ≠ (sampleParamsAlt ℝ).useLogFreq ∧
    (generateSimulation (JsMath.mk Real.exp Real.log Real.sqrt) (sampleParams ℝ)).map DataPoint.f
      = (generateSimulation (JsMath.mk Real.exp Real.log Real.sqrt) (sampleParamsAlt ℝ)).map
          DataPoint.f :=
  ⟨by norm_num [sampleParams, sampleParamsAlt], by simp [sampleParams, sampleParamsAlt],
    (f_sequence_depends_on_F_params_only _ (sampleParams ℝ) (sampleParamsAlt ℝ)
      rfl rfl rfl rfl rfl).1⟩

/-- C9 as stated fails: with `kSteepness = 0` (the default parameters otherwise)
the run over the reals is not empty; it emits all 51 states. -/
theorem zero_steepness_emits_states :
    (zeroSteepnessParams ℝ).kSteepness = 0 ∧
    generateSimulation (JsMath.mk Real.exp Real.log Real.sqrt) (zeroSteepnessParams ℝ) ≠ [] ∧
    (generateSimulation (JsMath.mk Real.exp Real.log Real.sqrt) (zeroSteepnessParams ℝ)).length
      = 51 := by
  have hlen : (generateSimulation (JsMath.mk Real.exp Real.log Real.sqrt)
      (zeroSteepnessParams ℝ)).length = 51 := by
    rw [generateSimulation_eq_map, List.length_map, List.length_range]
    rfl
  refine ⟨rfl, ?_, hlen⟩
  intro h
  rw [h] at hlen
  simp at hlen

/-- C9, amended. `generateSimulation` validates nothing: for every parameter set
with `kSteepness = 0` it returns a sequence, with no error, of `timeSteps + 1`
states, the first of which has `time = 0` and `c = initialC`. -/
theorem zero_steepness_not_rejected (M : JsMath α) (p : Params α) (_hk : p.kSteepness = 0) :
    (generateSimulation M p).length = p.timeSteps + 1 ∧
    ∃ s : DataPoint α, (generateSimulation M p).head? = some s ∧ s.time = 0 ∧
      s.c = p.initialC := by
  have h0 := generateSimulation_getElem? M p 0 (Nat.zero_le _)
  refine ⟨?_, pointAt M p 0, ?_, rfl, rfl⟩
  · rw [generateSimulation_eq_map, List.length_map, List.length_range]
  · rw [List.head?_eq_getElem?]
    exact h0

/-- Witness of the amended C9 on the default parameters with `kSteepness = 0`. -/
theorem zero_steepness_not_rejected_witness :
    (zeroSteepnessParams ℝ).kSteepness = 0 ∧
    (generateSimulation (JsMath.mk Real.exp Real.log Real.sqrt) (zeroSteepnessParams ℝ)).length
      = (zeroSteepnessParams ℝ).timeSteps + 1 :=
  ⟨rfl, (zero_steepness_not_rejected _ (zeroSteepnessParams ℝ) rfl).1⟩

/-- C10. With `timeSteps = 0` the run is the single state
`{time: 0, c: initialC, f: calculateF(0, ...), freq: initialFreq,
tpm: useLogFreq ? exp(initialFreq) - 1 : initialFreq,
phi: calculatePhi(initialC, initialFreq, calculateF(0, ...), ...)}`;
no value of `calculateC` or `calculateFreq` enters it. -/
theorem single_state_of_timeSteps_zero (M : JsMath α) (p : Params α) (h : p.timeSteps = 0) :
    generateSimulation M p =
      [{ time := 0
         c := p.initialC
         f := calculateF M 0 p.fKSteepness p.fTMid p.fMin p.fMax
         freq := p.initialFreq
         tpm := if p.useLogFreq then M.exp p.initialFreq - 1 else p.initialFreq
         phi := calculatePhi p.initialC p.initialFreq
           (calculateF M 0 p.fKSteepness p.fTMid p.fMin p.fMax)
           p.alpha p.beta p.gamma p.freqMax }] := by
  rw [generateSimulation_eq_map, h]
  simp [List.range_succ, pointAt, trajectory]

/-- Witness of C10 on the default parameters with `timeSteps = 0`. -/
theorem single_state_of_timeSteps_zero_witness :
    (zeroStepsParams ℝ).timeSteps = 0 ∧
    (generateSimulation (JsMath.mk Real.exp Real.log Real.sqrt) (zeroStepsParams ℝ)).length = 1 :=
  ⟨rfl, by rw [single_state_of_timeSteps_zero _ (zeroStepsParams ℝ) rfl]; rfl⟩

/-- C11. The example scenario (the default parameters, `timeSteps = 50`,
`useLogFreq = true`) over the reals: the run has 51 states, the first `c` is `0.1`,
and `c[t] ≤ c[t+1]` for every `t` with `1 ≤ t < 50`. -/
theorem default_scenario_tail_nondecreasing :
    (generateSimulation (JsMath.mk Real.exp Real.log Real.sqrt) (defaultParams ℝ)).length = 51 ∧
    (∃ s : DataPoint ℝ, (generateSimulation (JsMath.mk Real.exp Real.log Real.sqrt) (defaultParams ℝ))[0]? = some s ∧ s.c = 0.1) ∧
    ∀ t : Nat, 1 ≤ t → t < 50 →
      ∃ s s' : DataPoint ℝ, (generateSimulation (JsMath.mk Real.exp Real.log Real.sqrt) (defaultParams ℝ))[t]? = some s ∧
        (generateSimulation (JsMath.mk Real.exp Real.log Real.sqrt) (defaultParams ℝ))[t + 1]? = some s' ∧ s.c ≤ s'.c := by
  have hsteps : (defaultParams ℝ).timeSteps = 50 := rfl
  refine ⟨?_, ⟨_, generateSimulation_getElem? _ _ 0 (Nat.zero_le _), ?_⟩, ?_⟩
  · rw [generateSimulation_eq_map, List.length_map, List.length_range, hsteps]
  · simp [pointAt, trajectory, defaultParams]
  · intro t ht1 ht2
    obtain ⟨j, rfl⟩ : ∃ j, t = j + 1 := ⟨t - 1, by omega⟩
    refine ⟨_, _, generateSimulation_getElem? _ _ (j + 1) (by rw [hsteps]; omega),
      generateSimulation_getElem? _ _ (j + 1 + 1) (by rw [hsteps]; omega), ?_⟩
    exact trajectory_c_tail_mono_real (defaultParams ℝ) (by norm_num [defaultParams])
      (by norm_num [defaultParams]) (by norm_num [defaultParams]) (by norm_num [defaultParams])
      (by norm_num [defaultParams]) (by norm_num [defaultParams]) (by norm_num [defaultParams])
      (by norm_num [defaultParams]) (by norm_num [defaultParams]) (by norm_num [defaultParams])
      (by norm_num [defaultParams]) (by norm_num [defaultParams]) (by norm_num [defaultParams])
      (by norm_num [defaultParams]) j

/-- C12 as stated fails: the default parameters with `kSteepness = 0`, and with
`freqMax = 0`, satisfy the conditions of the claim, and on JavaScript numbers the
`freq` emitted at step 1 is NaN in both runs, which is not `≥ initialFreq`. -/
theorem freq_nan_zero_steepness_or_freqMax :
    (0 < (zeroSteepnessParams ℝ).initialFreq ∧ 0 ≤ (zeroSteepnessParams ℝ).delta ∧
      0 < (zeroSteepnessParams ℝ).cMax ∧ 0 < (zeroSteepnessParams ℝ).initialC ∧
      (zeroSteepnessParams ℝ).initialC < (zeroSteepnessParams ℝ).cMax ∧
      -1 ≤ (zeroSteepnessParams ℝ).fMin ∧
      (zeroSteepnessParams ℝ).fMin ≤ (zeroSteepnessParams ℝ).fMax) ∧
    (∃ s : DataPoint (JsNum ℝ),
      (generateSimulation (JsNum.liftMath (JsMath.mk Real.exp Real.log Real.sqrt)) (JsNum.ofParams (zeroSteepnessParams ℝ)))[1]? = some s ∧
      s.freq = JsNum.nan ∧ ¬ ((JsNum.ofParams (zeroSteepnessParams ℝ)).initialFreq ≤ s.freq)) ∧
    (0 < (zeroFreqMaxParams ℝ).initialFreq ∧ 0 ≤ (zeroFreqMaxParams ℝ).delta ∧
      0 < (zeroFreqMaxParams ℝ).cMax ∧ 0 < (zeroFreqMaxParams ℝ).initialC ∧
      (zeroFreqMaxParams ℝ).initialC < (zeroFreqMaxParams ℝ).cMax ∧
      -1 ≤ (zeroFreqMaxParams ℝ).fMin ∧
      (zeroFreqMaxParams ℝ).fMin ≤ (zeroFreqMaxParams ℝ).fMax) ∧
    (∃ s : DataPoint (JsNum ℝ),
      (generateSimulation (JsNum.liftMath (JsMath.mk Real.exp Real.log Real.sqrt)) (JsNum.ofParams (zeroFreqMaxParams ℝ)))[1]? = some s ∧
      s.freq = JsNum.nan ∧ ¬ ((JsNum.ofParams (zeroFreqMaxParams ℝ)).initialFreq ≤ s.freq)) := by
  refine ⟨by norm_num [zeroSteepnessParams, defaultParams], ?_,
    by norm_num [zeroFreqMaxParams, defaultParams], ?_⟩
  · refine ⟨_, generateSimulation_getElem? _ _ 1 (by simp [JsNum.ofParams, zeroSteepnessParams,
      defaultParams]), zeroSteepness_freq_one, ?_⟩
    have hq : (pointAt (JsNum.liftMath (JsMath.mk Real.exp Real.log Real.sqrt)) (JsNum.ofParams (zeroSteepnessParams ℝ)) 1).freq = JsNum.nan :=
      zeroSteepness_freq_one
    rw [hq]
    exact JsNum.not_le_nan _
  · refine ⟨_, generateSimulation_getElem? _ _ 1 (by simp [JsNum.ofParams, zeroFreqMaxParams,
      defaultParams]), zeroFreqMax_freq_one, ?_⟩
    have hq : (pointAt (JsNum.liftMath (JsMath.mk Real.exp Real.log Real.sqrt)) (JsNum.ofParams (zeroFreqMaxParams ℝ)) 1).freq = JsNum.nan :=
      zeroFreqMax_freq_one
    rw [hq]
    exact JsNum.not_le_nan _

/-- C12, amended. Over the reals, with `kSteepness ≠ 0` and `freqMax ≠ 0` besides
`initialFreq > 0`, `delta ≥ 0`, `cMax > 0`, `0 < initialC < cMax` and
`-1 ≤ fMin ≤ fMax` (either sign of `kSteepness`, any `fKSteepness`, `useLogFreq`),
every emitted `freq` satisfies `freq ≥ initialFreq > 0`, so the argument
`freq + 0.1` of the square root is non-negative. -/
theorem emitted_freq_ge_initialFreq (p : Params ℝ) (_hk : p.kSteepness ≠ 0)
    (_hfm : p.freqMax ≠ 0) (hfreq : 0 < p.initialFreq)
    (hdelta : 0 ≤ p.delta) (hM : 0 < p.cMax) (h0 : 0 < p.initialC) (h1 : p.initialC < p.cMax)
    (hmin : -1 ≤ p.fMin) (hle : p.fMin ≤ p.fMax) (s : DataPoint ℝ)
    (hs : s ∈ generateSimulation (JsMath.mk Real.exp Real.log Real.sqrt) p) :
    p.initialFreq ≤ s.freq ∧ 0 < s.freq ∧ 0 ≤ s.freq + 0.1 := by
  obtain ⟨i, _, rfl⟩ := mem_generateSimulation _ p s hs
  have h := (trajectory_freq_mono_real p hfreq hdelta hM h0 h1 hmin hle i).1
  have h' : p.initialFreq ≤ (pointAt (JsMath.mk Real.exp Real.log Real.sqrt) p i).freq := h
  refine ⟨h', by linarith, ?_⟩
  norm_num
  linarith

/-- Witness of the amended C12: the state emitted at step 50 of the default
scenario. -/
theorem emitted_freq_ge_initialFreq_witness :
    ∃ s : DataPoint ℝ, s ∈ generateSimulation (JsMath.mk Real.exp Real.log Real.sqrt) (defaultParams ℝ) ∧ s.time = 50 ∧
      (defaultParams ℝ).initialFreq ≤ s.freq ∧ 0 < s.freq ∧ 0 ≤ s.freq + 0.1 :=
  ⟨_, pointAt_mem _ _ 50 (by simp [defaultParams]), rfl,
    emitted_freq_ge_initialFreq (defaultParams ℝ) (by norm_num [defaultParams])
      (by norm_num [defaultParams]) (by norm_num [defaultParams])
      (by norm_num [defaultParams]) (by norm_num [defaultParams]) (by norm_num [defaultParams])
      (by norm_num [defaultParams]) (by norm_num [defaultParams]) (by norm_num [defaultParams])
      _ (pointAt_mem _ _ 50 (by simp [defaultParams]))⟩

/-- C13. Determinism: two invocations of `generateSimulation` from component
states with identical values of all seventeen parameters, whatever their previous
`chartData`, leave identical `chartData`, namely the sequence computed from the
parameters alone, and leave the parameters untouched. -/
theorem useEffect_deterministic (M : JsMath α) (st₁ st₂ : Component α)
    (h1 : st₁.params.initialC = st₂.params.initialC)
    (h2 : st₁.params.initialF = st₂.params.initialF)
    (h3 : st₁.params.initialFreq = st₂.params.initialFreq)
    (h4 : st₁.params.alpha = st₂.params.alpha)
    (h5 : st₁.params.beta = st₂.params.beta)
    (h6 : st₁.params.gamma = st₂.params.gamma)
    (h7 : st₁.params.kSteepness = st₂.params.kSteepness)
    (h8 : st₁.params.tMid = st₂.params.tMid)
    (h9 : st₁.params.fKSteepness = st₂.params.fKSteepness)
    (h10 : st₁.params.fTMid = st₂.params.fTMid)
    (h11 : st₁.params.delta = st₂.params.delta)
    (h12 : st₁.params.freqMax = st₂.params.freqMax)
    (h13 : st₁.params.cMax = st₂.params.cMax)
    (h14 : st₁.params.fMin = st₂.params.fMin)
    (h15 : st₁.params.fMax = st₂.params.fMax)
    (h16 : st₁.params.timeSteps = st₂.params.timeSteps)
    (h17 : st₁.params.useLogFreq = st₂.params.useLogFreq) :
    (useEffect M st₁).chartData = (useEffect M st₂).chartData ∧
    (useEffect M st₁).chartData = generateSimulation M st₁.params ∧
    (useEffect M st₁).params = st₁.params := by
  have hp : st₁.params = st₂.params :=
    params_eq_of_fields _ _ h1 h2 h3 h4 h5 h6 h7 h8 h9 h10 h11 h12 h13 h14 h15 h16 h17
  refine ⟨?_, rfl, rfl⟩
  simp only [useEffect]
  rw [hp]

/-- Witness of C13: the default parameters over the reals, once with an empty
`chartData` and once with the `chartData` left by a previous run on `sampleParams`. -/
theorem useEffect_deterministic_witness :
    (useEffect (JsMath.mk Real.exp Real.log Real.sqrt)
        (Component.mk (defaultParams ℝ) [])).chartData
      = (useEffect (JsMath.mk Real.exp Real.log Real.sqrt)
        (Component.mk (defaultParams ℝ) (generateSimulation (JsMath.mk Real.exp Real.log Real.sqrt) (sampleParams ℝ)))).chartData :=
  (useEffect_deterministic (JsMath.mk Real.exp Real.log Real.sqrt)
    (Component.mk (defaultParams ℝ) [])
    (Component.mk (defaultParams ℝ) (generateSimulation (JsMath.mk Real.exp Real.log Real.sqrt) (sampleParams ℝ)))
    rfl rfl rfl rfl rfl rfl rfl rfl rfl rfl rfl rfl rfl rfl rfl rfl rfl).1

/-- C15 as stated fails: on JavaScript numbers the `c` emitted at step 1 is NaN
with `kSteepness = 0`, and with `freqMax = 0`, and the `c` emitted at step 2 is NaN
with `initialFreq = -1` (the default parameters otherwise; all three sets have
`cMax > 0` and `0 < initialC < cMax`), and NaN is not inside `(0, cMax)`. -/
theorem c_nan_outside_band :
    (0 < (zeroSteepnessParams ℝ).cMax ∧ 0 < (zeroSteepnessParams ℝ).initialC ∧
      (zeroSteepnessParams ℝ).initialC < (zeroSteepnessParams ℝ).cMax) ∧
    (∃ s : DataPoint (JsNum ℝ),
      (generateSimulation (JsNum.liftMath (JsMath.mk Real.exp Real.log Real.sqrt)) (JsNum.ofParams (zeroSteepnessParams ℝ)))[1]? = some s ∧
      s.c = JsNum.nan ∧
      ¬ (0 < s.c ∧ s.c < (JsNum.ofParams (zeroSteepnessParams ℝ)).cMax)) ∧
    (∃ s : DataPoint (JsNum ℝ),
      (generateSimulation (JsNum.liftMath (JsMath.mk Real.exp Real.log Real.sqrt)) (JsNum.ofParams (zeroFreqMaxParams ℝ)))[1]? = some s ∧
      s.c = JsNum.nan ∧
      ¬ (0 < s.c ∧ s.c < (JsNum.ofParams (zeroFreqMaxParams ℝ)).cMax)) ∧
    (∃ s : DataPoint (JsNum ℝ),
      (generateSimulation (JsNum.liftMath (JsMath.mk Real.exp Real.log Real.sqrt)) (JsNum.ofParams (negativeFreqParams ℝ)))[2]? = some s ∧
      s.c = JsNum.nan ∧
      ¬ (0 < s.c ∧ s.c < (JsNum.ofParams (negativeFreqParams ℝ)).cMax)) := by
  refine ⟨by norm_num [zeroSteepnessParams, defaultParams], ?_, ?_, ?_⟩
  · refine ⟨_, generateSimulation_getElem? _ _ 1 (by simp [JsNum.ofParams, zeroSteepnessParams,
      defaultParams]), zeroSteepness_c_one, ?_⟩
    show ¬ (_ < (trajectory _ _ 1).1 ∧ _)
    rw [zeroSteepness_c_one]
    exact fun h => JsNum.not_lt_nan _ h.1
  · refine ⟨_, generateSimulation_getElem? _ _ 1 (by simp [JsNum.ofParams, zeroFreqMaxParams,
      defaultParams]), zeroFreqMax_c_one, ?_⟩
    show ¬ (_ < (trajectory _ _ 1).1 ∧ _)
    rw [zeroFreqMax_c_one]
    exact fun h => JsNum.not_lt_nan _ h.1
  · refine ⟨_, generateSimulation_getElem? _ _ 2 (by simp [JsNum.ofParams, negativeFreqParams,
      defaultParams]), negativeFreq_c_two, ?_⟩
    show ¬ (_ < (trajectory _ _ 2).1 ∧ _)
    rw [negativeFreq_c_two]
    exact fun h => JsNum.not_lt_nan _ h.1

/-- C15, amended. Over the reals, with `cMax > 0`, `0 < initialC < cMax`,
`kSteepness ≠ 0`, `freqMax ≠ 0` and, under the square-root law, `initialFreq > 0`,
`delta ≥ 0` and `-1 ≤ fMin ≤ fMax` (either sign of `kSteepness`, any `tMid`, weights,
`timeSteps`), every emitted state has `0 < c ≤ cMax`. -/
theorem emitted_c_in_band (p : Params ℝ) (hM : 0 < p.cMax) (h0 : 0 < p.initialC)
    (h1 : p.initialC < p.cMax) (_hk : p.kSteepness ≠ 0) (_hfm : p.freqMax ≠ 0)
    (_hlog : p.useLogFreq = true →
      0 < p.initialFreq ∧ 0 ≤ p.delta ∧ -1 ≤ p.fMin ∧ p.fMin ≤ p.fMax)
    (s : DataPoint ℝ) (hs : s ∈ generateSimulation (JsMath.mk Real.exp Real.log Real.sqrt) p) :
    0 < s.c ∧ s.c ≤ p.cMax := by
  obtain ⟨i, _, rfl⟩ := mem_generateSimulation _ p s hs
  exact ⟨(trajectory_c_bounds_real p hM h0 h1 i).1,
    le_of_lt (trajectory_c_bounds_real p hM h0 h1 i).2⟩

/-- Witness of the amended C15: the state emitted at step 50 of the default
scenario. -/
theorem emitted_c_in_band_witness :
    ∃ s : DataPoint ℝ, s ∈ generateSimulation (JsMath.mk Real.exp Real.log Real.sqrt) (defaultParams ℝ) ∧ s.time = 50 ∧
      0 < s.c ∧ s.c ≤ (defaultParams ℝ).cMax :=
  ⟨_, pointAt_mem _ _ 50 (by simp [defaultParams]), rfl,
    emitted_c_in_band (defaultParams ℝ) (by norm_num [defaultParams])
      (by norm_num [defaultParams]) (by norm_num [defaultParams])
      (by norm_num [defaultParams]) (by norm_num [defaultParams])
      (fun _ => by norm_num [defaultParams])
      _ (pointAt_mem _ _ 50 (by simp [defaultParams]))⟩

/-- C16 as stated fails: the default parameters with `freqMax = 0` satisfy the
conditions of the claim, and on JavaScript numbers the `phi` computed from
`calculateF(0, ...)` and the `phi` computed from `initialF` are equal (both are
`+Infinity`), yet the `c` emitted at step 1 is NaN and differs from the `c`
emitted at step 0. -/
theorem first_step_eq_fails_zero_freqMax :
    (0 < (zeroFreqMaxParams ℝ).cMax ∧ 0 < (zeroFreqMaxParams ℝ).initialC ∧
      (zeroFreqMaxParams ℝ).initialC < (zeroFreqMaxParams ℝ).cMax ∧
      0 < (zeroFreqMaxParams ℝ).kSteepness ∧ 1 ≤ (zeroFreqMaxParams ℝ).timeSteps) ∧
    ∃ s₀ s₁ : DataPoint (JsNum ℝ),
      (generateSimulation (JsNum.liftMath (JsMath.mk Real.exp Real.log Real.sqrt)) (JsNum.ofParams (zeroFreqMaxParams ℝ)))[0]? = some s₀ ∧
      (generateSimulation (JsNum.liftMath (JsMath.mk Real.exp Real.log Real.sqrt)) (JsNum.ofParams (zeroFreqMaxParams ℝ)))[1]? = some s₁ ∧
      calculatePhi (JsNum.ofParams (zeroFreqMaxParams ℝ)).initialC
          (JsNum.ofParams (zeroFreqMaxParams ℝ)).initialFreq
          (calculateF (JsNum.liftMath (JsMath.mk Real.exp Real.log Real.sqrt)) 0
            (JsNum.ofParams (zeroFreqMaxParams ℝ)).fKSteepness
            (JsNum.ofParams (zeroFreqMaxParams ℝ)).fTMid
            (JsNum.ofParams (zeroFreqMaxParams ℝ)).fMin
            (JsNum.ofParams (zeroFreqMaxParams ℝ)).fMax)
          (JsNum.ofParams (zeroFreqMaxParams ℝ)).alpha
          (JsNum.ofParams (zeroFreqMaxParams ℝ)).beta
          (JsNum.ofParams (zeroFreqMaxParams ℝ)).gamma
          (JsNum.ofParams (zeroFreqMaxParams ℝ)).freqMax
        = calculatePhi (JsNum.ofParams (zeroFreqMaxParams ℝ)).initialC
          (JsNum.ofParams (zeroFreqMaxParams ℝ)).initialFreq
          (JsNum.ofParams (zeroFreqMaxParams ℝ)).initialF
          (JsNum.ofParams (zeroFreqMaxParams ℝ)).alpha
          (JsNum.ofParams (zeroFreqMaxParams ℝ)).beta
          (JsNum.ofParams (zeroFreqMaxParams ℝ)).gamma
          (JsNum.ofParams (zeroFreqMaxParams ℝ)).freqMax ∧
      s₁.c ≠ s₀.c := by
  refine ⟨by norm_num [zeroFreqMaxParams, defaultParams], _, _,
    generateSimulation_getElem? _ _ 0 (Nat.zero_le _),
    generateSimulation_getElem? _ _ 1 (by simp [JsNum.ofParams, zeroFreqMaxParams,
      defaultParams]), ?_, ?_⟩
  · have hE := calculatePhi_eq_inf (JsNum.fin (0.1 : ℝ))
      (calculateF (JsNum.liftMath (JsMath.mk Real.exp Real.log Real.sqrt)) 0 (JsNum.fin (0.2 : ℝ)) (JsNum.fin 18) (JsNum.fin (-1.0))
        (JsNum.fin 0.0))
      (JsNum.fin (1.0 : ℝ)) (JsNum.fin (0.5 : ℝ)) (0.5 : ℝ) (1.0 : ℝ) (by norm_num)
      (by norm_num) (JsNum.isFinite_fin _)
      (calculateF_isFinite _ _ _ _ _ JsNum.isFinite_zero (JsNum.isFinite_fin _)
        (JsNum.isFinite_fin _) (JsNum.isFinite_fin _) (JsNum.isFinite_fin _))
      (JsNum.isFinite_fin _) (JsNum.isFinite_fin _)
    have h0 := calculatePhi_eq_inf (JsNum.fin (0.1 : ℝ)) (JsNum.fin (-0.9 : ℝ))
      (JsNum.fin (1.0 : ℝ)) (JsNum.fin (0.5 : ℝ)) (0.5 : ℝ) (1.0 : ℝ) (by norm_num)
      (by norm_num) (JsNum.isFinite_fin _) (JsNum.isFinite_fin _) (JsNum.isFinite_fin _)
      (JsNum.isFinite_fin _)
    exact hE.trans h0.symm
  · show (trajectory _ _ 1).1 ≠ JsNum.fin _
    rw [zeroFreqMax_c_one]
    exact fun h => JsNum.noConfusion h

/-- C16, amended. The first recurrence step does not continue from the calibrated
point in the default scenario: over the reals, on the default parameters, the `c`
emitted at step 1 is below the `c` emitted at step 0, so the emitted `c` series
dips at `t = 1` and is not non-decreasing over the whole run. -/
theorem default_first_step_dips :
    ∃ d₀ d₁ : DataPoint ℝ,
      (generateSimulation (JsMath.mk Real.exp Real.log Real.sqrt) (defaultParams ℝ))[0]? = some d₀ ∧
      (generateSimulation (JsMath.mk Real.exp Real.log Real.sqrt) (defaultParams ℝ))[1]? = some d₁ ∧ d₁.c < d₀.c := by
  refine ⟨_, _, generateSimulation_getElem? _ _ 0 (Nat.zero_le _),
    generateSimulation_getElem? _ _ 1 (by simp [defaultParams]), ?_⟩
  exact (trajectory_one_compare_real (defaultParams ℝ) (by norm_num [defaultParams])
    (by norm_num [defaultParams]) (by norm_num [defaultParams])
    (by norm_num [defaultParams])).1.mpr defaultParams_first_phi_lt

end Exact

end DualSigmoidModel
